import Mathlib

/-!
# UrBackup server: `Backup` job lifecycle and log report mail

A shallow embedding of `urbackupserver/Backup.cpp`:

* `Backup::operator()`            ↦ `Backup.call`
* `Backup::createDirectoryForClient` ↦ `Backup.createDirectoryForClient`
* `Backup::saveClientLogdata`     ↦ `Backup.saveClientLogdata`
* `Backup::sendLogdataMail`       ↦ `Backup.sendLogdataMail`
* `Backup::getUserRights`         ↦ `Backup.getUserRights`

`std::string` / `std::wstring` are `String` (`widen` and `ConvertToUTF8` are the identity),
`int` / `int64` values are `Int`.  Calls into external collaborators (status registry, logger,
database, mail transport, command pipe) are recorded, in call order, in `World.trace`; what they
answer is read from `Env`.  The backup engine `doBackup` is a parameter of the model.
`ScopedActiveThread` (thread accounting) and the unused local `do_log` have no counterpart.
Functions of the repository that `Backup.cpp` calls and that live in other files (`stringtools`,
`server_log.cpp`) are modelled from the specification and marked as such.
-/

namespace UrBackup

/-! ## Helpers of `stringtools` -/

/-- Value of a run of decimal digits, most significant digit first. -/
def digitsVal (cs : List Char) : Nat :=
  cs.foldl (fun a c => a * 10 + (c.toNat - 48)) 0

/-- White space as skipped by the C number parsers. -/
def isSpaceC (c : Char) : Bool :=
  c = ' ' || c.toNat = 9 || c.toNat = 10 || c.toNat = 11 || c.toNat = 12 || c.toNat = 13

/-- Text to number the way `atoi` / `wcstol(_, _, 10)` read it: leading white space, an optional
sign, then the longest run of decimal digits; text that has no digits there reads as `0`. -/
def atoiChars (cs : List Char) : Int :=
  match cs.dropWhile isSpaceC with
  | [] => 0
  | c :: r =>
    if c = '-' then - (digitsVal (r.takeWhile Char.isDigit) : Int)
    else if c = '+' then (digitsVal (r.takeWhile Char.isDigit) : Int)
    else (digitsVal ((c :: r).takeWhile Char.isDigit) : Int)

/-- Two's-complement value of `x` in a signed integer of `bits` bits. -/
def wrapInt (bits : Nat) (x : Int) : Int :=
  (x + 2 ^ (bits - 1)) % 2 ^ bits - 2 ^ (bits - 1)

/-- Modelled from the spec: `watoi` of `stringtools` (not part of the sources at hand), which
§4.4 uses to "parse ... a list of integers".  It reads a wide string as a decimal `int` with the
conventions of the C library (`atoiChars`), the result being a 32 bit `int`. -/
def watoi (s : String) : Int :=
  wrapInt 32 (atoiChars s.toList)

/-- Modelled from the spec: `watoi64` of `stringtools` (not part of the sources at hand): as
`watoi`, with an `int64` result; it reads the unix timestamp of a log line (§6). -/
def watoi64 (s : String) : Int :=
  wrapInt 64 (atoiChars s.toList)

/-- Modelled from the spec: `nconvert` of `stringtools` (not part of the sources at hand): the
decimal text of an `int`, as in the counts summary `( N infos, N warnings, N errors )` of §4.2. -/
def nconvert (n : Int) : String :=
  toString n

/-- Splitting of `str` at every character of `seps`; `cur` is the token being read.  A token that
ends at a separator is kept (also when empty), the rest after the last separator only when it is
not empty. -/
def tokenizeChars (seps : List Char) : List Char → List Char → List (List Char)
  | [], cur => if cur.isEmpty then [] else [cur]
  | c :: rest, cur =>
    if seps.contains c then cur :: tokenizeChars seps rest []
    else tokenizeChars seps rest (cur ++ [c])

/-- Modelled from the spec: `Tokenize` of `stringtools` (not part of the sources at hand):
§4.4 "a comma-separated list", §4.2 "split on ',' or ';'".  The tokens of `str` between
characters of `seps`. -/
def Tokenize (str : String) (seps : String) : List String :=
  (tokenizeChars seps.toList str.toList []).map String.mk

/-- Modelled from the spec: `TokenizeMail` of `stringtools` (not part of the sources at hand):
the serialized log is split into its lines ("one line per entry", §6). -/
def TokenizeMail (str : String) (seps : String) : List String :=
  (tokenizeChars seps.toList str.toList []).map String.mk

/-- Position of the first occurrence of `needle` in `hay`, when there is one
(`std::string::find`). -/
def findSub (needle : List Char) : List Char → Option Nat
  | [] => if needle.isEmpty then some 0 else none
  | c :: rest =>
    if needle.isPrefixOf (c :: rest) then some 0
    else (findSub needle rest).map (· + 1)

/-- Modelled from the spec: `getuntil` of `stringtools` (not part of the sources at hand):
the text of `data` before the first occurrence of `str` (§6: "splits on the first literal
'-'"), empty when `str` does not occur. -/
def getuntil (str : String) (data : String) : String :=
  match findSub str.toList data.toList with
  | some off => String.mk (data.toList.take off)
  | none => ""

/-- Modelled from the spec: `getafter` of `stringtools` (not part of the sources at hand):
the text of `data` after the first occurrence of `str` (§6), empty when `str` does not occur. -/
def getafter (str : String) (data : String) : String :=
  match findSub str.toList data.toList with
  | some pos => String.mk (data.toList.drop (pos + str.toList.length))
  | none => ""

/-! ## Data model -/

/-- Log levels of `Interface/Server.h`. -/
def LL_INFO : Int := 0

/-- Log level of warnings. -/
def LL_WARNING : Int := 1

/-- Log level of errors. -/
def LL_ERROR : Int := 2

/-- The logging policy of a job (`Backup.h`). -/
inductive LogAction where
  | LogAction_NoLogging
  | LogAction_LogIfNotDisabled
  | LogAction_AlwaysLog
  deriving DecidableEq, Repr

/-- The actions of `server_status.h` that `Backup.cpp` publishes. -/
inductive StatusAction where
  | sa_none
  | sa_incr_file
  | sa_full_file
  | sa_incr_image
  | sa_full_image
  | sa_resume_incr_file
  | sa_resume_full_file
  deriving DecidableEq, Repr

/-- The fields of `SStatus` that `Backup.cpp` reads or writes. -/
structure SStatus where
  client : String
  statusaction : StatusAction
  pcdone : Int
  hashqueuesize : Int
  prepare_hashqueuesize : Int
  deriving DecidableEq, Repr

/-- An entry of the per-client log buffer of `ServerLogger`. -/
structure LogEntry where
  loglevel : Int
  time : Int
  msg : String
  deriving DecidableEq, Repr

/-- Mail server settings; `Backup.cpp` reads `servername`. -/
structure MailServer where
  servername : String
  deriving DecidableEq, Repr

/-- The record `ServerBackupDao::CondString`. -/
structure CondString where
  «exists» : Bool
  value : String
  deriving DecidableEq, Repr

/-- The record `ServerBackupDao::SReportSettings`. -/
structure SReportSettings where
  «exists» : Bool
  report_mail : String
  report_loglevel : Int
  report_sendonly : Int
  deriving DecidableEq, Repr

/-- One call of `url_fak->sendMail`.  `userid` is not an argument of the call: it names the user
of `mailable_user_ids` in whose loop iteration the call is made. -/
structure MailCall where
  userid : Int
  to_addrs : List String
  subj : String
  msg : String
  deriving DecidableEq, Repr

/-- The calls `Backup.cpp` makes into its collaborators, with their arguments. -/
inductive Event where
  | loggerReset (clientid : Int)
  | setServerStatus (status : SStatus)
  | stopBackup (clientname : String) (stop : Bool)
  | startBackupRunning (file : Bool)
  | stopBackupRunning (file : Bool)
  | loggerLog (clientid : Int) (msg : String) (loglevel : Int)
  | updateStats (interruptible : Bool)
  | saveBackupLog (clientid errors warnings infos image incremental resumed : Int)
  | saveBackupLogData (logid : Int) (logdata : String)
  | sendMail (call : MailCall)
  | serverLog (msg : String) (loglevel : Int)
  | pipeWrite (msg : String)
  deriving DecidableEq, Repr

/-- What the collaborators answer when `Backup.cpp` asks them. -/
structure Env where
  /-- answer of `ClientMain::getMailServerSettings()` -/
  mail_server : MailServer
  /-- whether `url_fak != NULL` -/
  url_fak : Bool
  /-- the result `(b, errmsg)` of the `k`-th call of `url_fak->sendMail` -/
  sendMail : Nat → Bool × String
  /-- answer of `backup_dao->getMailableUserIds()` -/
  mailable_user_ids : List Int
  /-- answer of `backup_dao->getUserRight(userid, domain)` -/
  getUserRight : Int → String → CondString
  /-- answer of `backup_dao->getUserReportSettings(userid)` -/
  getUserReportSettings : Int → SReportSettings
  /-- answer of `backup_dao->formatUnixtime(t).value` -/
  formatUnixtime : Int → String
  /-- setting `server_settings->getSettings()->backupfolder` -/
  backupfolder : String
  /-- answer of `os_file_sep()` -/
  os_file_sep : String
  /-- answer of `os_file_prefix(path)` -/
  os_file_prefix : String → String
  /-- answer of `os_create_dir(path)` -/
  os_create_dir : String → Bool
  /-- answer of `os_directory_exists(path)` -/
  os_directory_exists : String → Bool
  /-- answer of `PrettyPrintTime(ms)` -/
  PrettyPrintTime : Int → String
  /-- the delimiter that follows the severity digit of a serialized log line (§6) -/
  log_sep : Char

/-- The state shared with the collaborators. -/
structure World where
  /-- every call made so far, oldest first -/
  trace : List Event
  /-- the stop-requested flag of `ServerStatus`, by client name -/
  stop_backup : String → Bool
  /-- the log buffer of `ServerLogger`, by client id -/
  client_log : Int → List LogEntry
  /-- answer of `Server->getTimeMS()` -/
  time_ms : Int
  /-- answer of `Server->getTimeSeconds()` -/
  unixtime : Int
  /-- answer of `db->getLastInsertID()` -/
  last_insert_id : Int

/-- The members of `Backup`.  `db`, `server_settings` and `backup_dao` tell whether the handle is
held. -/
structure Backup where
  clientid : Int
  clientname : String
  log_action : LogAction
  is_file_backup : Bool
  r_incremental : Bool
  r_resumed : Bool
  backup_result : Bool
  log_backup : Bool
  has_early_error : Bool
  should_backoff : Bool
  status : SStatus
  db : Bool
  server_settings : Bool
  backup_dao : Bool

/-- The virtual `doBackup()`: it may change the members of the job and the shared state in any
way, and returns the result. -/
abbrev Engine := Backup → World → Bool × Backup × World

/-! ## Collaborators -/

/-- Record a call. -/
def World.emit (w : World) (e : Event) : World :=
  { w with trace := w.trace ++ [e] }

/-- Modelled from the spec: `ServerLogger::reset` (server_log.cpp, not part of the sources at
hand) empties the log buffer of the client, "so the next run starts empty" (§4.2). -/
def ServerLogger.reset (clientid : Int) (w : World) : World :=
  { w.emit (.loggerReset clientid) with
    client_log := fun c => if c = clientid then [] else w.client_log c }

/-- Modelled from the spec: `ServerLogger::Log` (server_log.cpp, not part of the sources at
hand) appends a severity-tagged, timestamped entry to the buffer of the client (§3 LogEntry:
"append-only, ordered by emission time"). -/
def ServerLogger.Log (clientid : Int) (msg : String) (loglevel : Int) (w : World) : World :=
  { w.emit (.loggerLog clientid msg loglevel) with
    client_log := fun c =>
      if c = clientid then w.client_log c ++ [⟨loglevel, w.unixtime, msg⟩] else w.client_log c }

/-- Modelled from the spec: the wire format of one log entry (§6),
`<severityDigit><sep><unixTimestamp>-<message>`. -/
def serializeLogEntry (sep : Char) (e : LogEntry) : String :=
  toString e.loglevel ++ String.singleton sep ++ toString e.time ++ "-" ++ e.msg

/-- Modelled from the spec: the serialized log (§4.2): the lines of the entries, each closed by
a newline. -/
def serializeLog (sep : Char) : List LogEntry → String
  | [] => ""
  | e :: rest => serializeLogEntry sep e ++ "\n" ++ serializeLog sep rest

/-- Number of entries of one severity. -/
def countLevel (loglevel : Int) (entries : List LogEntry) : Int :=
  ((entries.filter (fun e => e.loglevel = loglevel)).length : Int)

/-- Modelled from the spec: `ServerLogger::getLogdata` (server_log.cpp, not part of the sources
at hand): the serialized log of the client and the counts `(errors, warnings, infos)` (§4.2). -/
def ServerLogger.getLogdata (env : Env) (clientid : Int) (w : World) : String × Int × Int × Int :=
  let entries := w.client_log clientid
  (serializeLog env.log_sep entries,
   countLevel LL_ERROR entries, countLevel LL_WARNING entries, countLevel LL_INFO entries)

/-- The call `ServerStatus::setServerStatus(status)`: the record is published. -/
def ServerStatus.setServerStatus (status : SStatus) (w : World) : World :=
  w.emit (.setServerStatus status)

/-- The call `ServerStatus::stopBackup(clientname, b)`: the stop-requested flag of the client
is set to `b`. -/
def ServerStatus.stopBackup (clientname : String) (b : Bool) (w : World) : World :=
  { w.emit (.stopBackup clientname b) with
    stop_backup := fun c => if c = clientname then b else w.stop_backup c }

/-- The call `Server->Log(msg, loglevel)`. -/
def Server.Log (msg : String) (loglevel : Int) (w : World) : World :=
  w.emit (.serverLog msg loglevel)

/-- The status records published so far, oldest first. -/
def World.published (w : World) : List SStatus :=
  w.trace.filterMap fun e => match e with
    | .setServerStatus s => some s
    | _ => none

/-- The calls of the mail transport made so far, oldest first. -/
def World.outbox (w : World) : List MailCall :=
  w.trace.filterMap fun e => match e with
    | .sendMail c => some c
    | _ => none

/-- The entries written with `Server->Log` so far, oldest first. -/
def World.serverLog (w : World) : List (String × Int) :=
  w.trace.filterMap fun e => match e with
    | .serverLog m l => some (m, l)
    | _ => none

/-! ## `Backup.cpp` -/

/-- The function `Backup::getUserRights` (lines 304-321).  The call for a domain other than
"all" first asks for the domain "all", which asks no further. -/
def Backup.getUserRights (env : Env) (userid : Int) (domain : String) : String :=
  if domain ≠ "all" then
    if Backup.getUserRights env userid "all" = "all" then "all"
    else
      let t_right := env.getUserRight userid domain
      if t_right.exists then t_right.value else "none"
  else
    let t_right := env.getUserRight userid domain
    if t_right.exists then t_right.value else "none"
termination_by (if domain = "all" then 0 else 1)
decreasing_by simp_all

/-- The access check of `sendLogdataMail` for one user (lines 178-195): the value of `has_r`. -/
def Backup.hasLogRight (env : Env) (this : Backup) (userid : Int) : Bool :=
  let logr := Backup.getUserRights env userid "logs"
  if logr ≠ "all" then
    let toks := Tokenize logr ","
    toks.foldl (fun has_r tok => if watoi tok = this.clientid then true else has_r) false
  else
    true

/-- The gating condition of `sendLogdataMail` (lines 208-213). -/
def Backup.reportGate (report_loglevel report_sendonly : Int) (r_success : Bool)
    (errors warnings infos : Int) : Bool :=
  ((report_loglevel == 0 && decide (infos > 0))
    || (decide (report_loglevel ≤ 1) && decide (warnings > 0))
    || (decide (report_loglevel ≤ 2) && decide (errors > 0))) &&
  (report_sendonly == 0 ||
    (report_sendonly == 1 && !r_success) ||
    (report_sendonly == 2 && r_success))

/-- The subject `subj` of the report mail (lines 218-257 and 287-290). -/
def Backup.mailSubject (this : Backup) (r_success : Bool) (image incremental : Int)
    (resumed : Bool) : String :=
  let subj := "UrBackup: "
  let subj :=
    if incremental > 0 then
      if resumed then subj ++ "Resumed incremental " else subj ++ "Incremental "
    else
      if resumed then subj ++ "Resumed full " else subj ++ "Full "
  let subj := if image > 0 then subj ++ "image " else subj ++ "file "
  let subj := subj ++ ("backup of \"" ++ this.clientname ++ "\"\n")
  if !r_success then subj ++ " - failed" else subj ++ " - success"

/-- The opening of the mail text `msg`, up to and with the counts summary (lines 219-269). -/
def Backup.mailHead (this : Backup) (image incremental : Int) (resumed : Bool)
    (errors warnings infos : Int) : String :=
  let msg := "UrBackup just did "
  let msg :=
    if incremental > 0 then
      if resumed then msg ++ "a resumed incremental " else msg ++ "an incremental "
    else
      if resumed then msg ++ "a resumed full " else msg ++ "a full "
  let msg := if image > 0 then msg ++ "image " else msg ++ "file "
  let msg := msg ++ ("backup of \"" ++ this.clientname ++ "\".\n")
  let msg := msg ++ "\nReport:\n"
  let msg := msg ++ ("( " ++ nconvert infos)
  let msg := if infos ≠ 1 then msg ++ " infos, " else msg ++ " info, "
  let msg := msg ++ nconvert warnings
  let msg := if warnings ≠ 1 then msg ++ " warnings, " else msg ++ " warning, "
  let msg := msg ++ nconvert errors
  let msg := if errors ≠ 1 then msg ++ " errors" else msg ++ " error"
  msg ++ " )\n\n"

/-- What the loop over the log lines reads from one line (lines 275-280): the level `li`, the
timestamp `watoi64(tt)` and the message `m`. -/
def Backup.parseLogLine (line : String) : Int × Int × String :=
  let ll := match line.toList with
    | [] => ""
    | c :: _ => String.singleton c
  let li := watoi ll
  let line := String.mk (line.toList.drop 2)
  let tt := getuntil "-" line
  let m := getafter "-" line
  (li, watoi64 tt, m)

/-- The text added to `msg` for one log line (lines 275-285). -/
def Backup.renderLogLine (env : Env) (line : String) : String :=
  let (li, t, m) := Backup.parseLogLine line
  let tt := env.formatUnixtime t
  let lls := if li = 1 then "warning" else if li = 2 then "error" else "info"
  tt ++ "(" ++ lls ++ "): " ++ m ++ "\n"

/-- The mail text `msg` (lines 219-286). -/
def Backup.mailBody (env : Env) (this : Backup) (image incremental : Int) (resumed : Bool)
    (errors warnings infos : Int) (data : String) : String :=
  let msgs := TokenizeMail data "\n"
  msgs.foldl (fun msg line => msg ++ Backup.renderLogLine env line)
    (Backup.mailHead this image incremental resumed errors warnings infos)

/-- One round of the loop over `mailable_user_ids` in `sendLogdataMail` (lines 178-300). -/
def Backup.sendLogdataMailUser (env : Env) (this : Backup) (r_success : Bool)
    (image incremental : Int) (resumed : Bool) (errors warnings infos : Int) (data : String)
    (userid : Int) (w : World) : World :=
  if Backup.hasLogRight env this userid then
    let report_settings := env.getUserReportSettings userid
    if report_settings.exists then
      let report_mail := report_settings.report_mail
      let report_loglevel := report_settings.report_loglevel
      let report_sendonly := report_settings.report_sendonly
      if Backup.reportGate report_loglevel report_sendonly r_success errors warnings infos then
        let to_addrs := Tokenize report_mail ",;"
        let subj := Backup.mailSubject this r_success image incremental resumed
        let msg := Backup.mailBody env this image incremental resumed errors warnings infos data
        let (b, errmsg) := env.sendMail w.outbox.length
        let w := w.emit (.sendMail ⟨userid, to_addrs, subj, msg⟩)
        if !b then Server.Log ("Sending mail failed. " ++ errmsg) LL_WARNING w else w
      else w
    else w
  else w

/-- The function `Backup::sendLogdataMail` (lines 166-302). -/
def Backup.sendLogdataMail (env : Env) (this : Backup) (r_success : Bool)
    (image incremental : Int) (resumed : Bool) (errors warnings infos : Int) (data : String)
    (w : World) : World :=
  if env.mail_server.servername = "" then w
  else if !env.url_fak then w
  else
    env.mailable_user_ids.foldl
      (fun w userid =>
        Backup.sendLogdataMailUser env this r_success image incremental resumed
          errors warnings infos data userid w)
      w

/-- The function `Backup::saveClientLogdata` (lines 149-164). -/
def Backup.saveClientLogdata (env : Env) (this : Backup) (image incremental : Int)
    (r_success : Bool) (resumed : Bool) (w : World) : World :=
  let (logdata, errors, warnings, infos) := ServerLogger.getLogdata env this.clientid w
  let w := { w.emit (.saveBackupLog this.clientid errors warnings infos
                (if this.is_file_backup then 0 else 1) (if this.r_incremental then 1 else 0)
                (if this.r_resumed then 1 else 0)) with
             last_insert_id := w.last_insert_id + 1 }
  let w := w.emit (.saveBackupLogData w.last_insert_id logdata)
  let w := Backup.sendLogdataMail env this r_success image incremental resumed
    errors warnings infos logdata w
  ServerLogger.reset this.clientid w

/-- The function `Backup::createDirectoryForClient` (lines 138-147). -/
def Backup.createDirectoryForClient (env : Env) (this : Backup) (w : World) : Bool × World :=
  let backupfolder := env.backupfolder
  let path := env.os_file_prefix (backupfolder ++ env.os_file_sep ++ this.clientname)
  if !env.os_create_dir path && !env.os_directory_exists path then
    (false, Server.Log
      ("Could not create or read directory for client \"" ++ this.clientname ++ "\"") LL_ERROR w)
  else
    (true, w)

/-- The status `Backup::operator()` computes before it publishes it (lines 52-89). -/
def Backup.initialStatus (this : Backup) : SStatus :=
  if this.is_file_backup then
    let status :=
      if this.r_incremental then
        if this.r_resumed then { this.status with statusaction := .sa_resume_incr_file }
        else { this.status with statusaction := .sa_incr_file }
      else
        if this.r_resumed then { this.status with statusaction := .sa_resume_full_file }
        else { this.status with statusaction := .sa_full_file }
    { status with pcdone := -1 }
  else
    let status :=
      if this.r_incremental then { this.status with statusaction := .sa_incr_image }
      else { this.status with statusaction := .sa_full_image }
    { status with pcdone := 0 }

/-- The part of `Backup::operator()` before the engine is called (lines 41-98).  It returns the
job, the shared state and `backup_starttime`. -/
def Backup.callBefore (env : Env) (this : Backup) (w : World) : Backup × World × Int :=
  let this := { this with db := true, server_settings := true, backup_dao := true }
  let w := if this.log_action ≠ .LogAction_NoLogging then ServerLogger.reset this.clientid w else w
  let this := { this with status := Backup.initialStatus this }
  let w := ServerStatus.setServerStatus this.status w
  let w := ServerStatus.stopBackup this.clientname false w
  let w := (Backup.createDirectoryForClient env this w).2
  let backup_starttime := w.time_ms
  let w := w.emit (.startBackupRunning this.is_file_backup)
  (this, w, backup_starttime)

/-- The part of `Backup::operator()` that closes the run in the log (lines 103-118); `this`
has `backup_result` set. -/
def Backup.callLogResult (env : Env) (this : Backup) (backup_starttime : Int) (w : World) :
    World :=
  let w := w.emit (.stopBackupRunning this.is_file_backup)
  if !this.has_early_error && this.log_action ≠ .LogAction_NoLogging then
    let w := ServerLogger.Log this.clientid
      ("Time taken for backing up client " ++ this.clientname ++ ": "
        ++ env.PrettyPrintTime (w.time_ms - backup_starttime)) LL_INFO w
    let w :=
      if !this.backup_result then ServerLogger.Log this.clientid "Backup failed" LL_ERROR w
      else ServerLogger.Log this.clientid "Backup succeeded" LL_INFO w
    w.emit (.updateStats false)
  else w

/-- The part of `Backup::operator()` after the engine has returned `r` (lines 101-135). -/
def Backup.callAfter (env : Env) (this : Backup) (r : Bool) (backup_starttime : Int)
    (w : World) : Backup × World :=
  let this := { this with backup_result := r }
  let w := Backup.callLogResult env this backup_starttime w
  let w :=
    if (this.log_backup || this.log_action = .LogAction_AlwaysLog)
        && this.log_action ≠ .LogAction_NoLogging then
      Backup.saveClientLogdata env this (if this.is_file_backup then 0 else 1)
        (if this.r_incremental then 1 else 0) (this.backup_result && !this.has_early_error)
        this.r_resumed w
    else w
  let this := { this with status := { this.status with pcdone := -1 } }
  let this := { this with status := { this.status with hashqueuesize := 0 } }
  let this := { this with status := { this.status with prepare_hashqueuesize := 0 } }
  let this := { this with status := { this.status with statusaction := .sa_none } }
  let w := ServerStatus.setServerStatus this.status w
  let this := { this with server_settings := false, backup_dao := false, db := false }
  let w := w.emit (.pipeWrite "WAKEUP")
  (this, w)

/-- The function `Backup::operator()` (lines 39-136), run with the engine `doBackup`. -/
def Backup.call (env : Env) (doBackup : Engine) (this : Backup) (w : World) : Backup × World :=
  let (this, w, backup_starttime) := Backup.callBefore env this w
  let (r, this, w) := doBackup this w
  Backup.callAfter env this r backup_starttime w

/-! ## Definitions used to state the properties -/

/-- The mapping of §4.1 from kind, mode and resumed flag to the published action. -/
def documentedAction (file incremental resumed : Bool) : StatusAction :=
  match file, incremental, resumed with
  | true, false, false => .sa_full_file
  | true, false, true => .sa_resume_full_file
  | true, true, false => .sa_incr_file
  | true, true, true => .sa_resume_incr_file
  | false, false, _ => .sa_full_image
  | false, true, _ => .sa_incr_image

/-- The call of the mail transport made for one user, when there is one: the conditions of
lines 197, 202 and 208-213 and the arguments of line 293. -/
def Backup.reportFor (env : Env) (this : Backup) (r_success : Bool)
    (image incremental : Int) (resumed : Bool) (errors warnings infos : Int) (data : String)
    (userid : Int) : Option MailCall :=
  if Backup.hasLogRight env this userid = true ∧
      (env.getUserReportSettings userid).exists = true ∧
      Backup.reportGate (env.getUserReportSettings userid).report_loglevel
        (env.getUserReportSettings userid).report_sendonly r_success errors warnings infos = true
  then
    some ⟨userid, Tokenize (env.getUserReportSettings userid).report_mail ",;",
      Backup.mailSubject this r_success image incremental resumed,
      Backup.mailBody env this image incremental resumed errors warnings infos data⟩
  else none

/-- The calls of the mail transport made by one call of `sendLogdataMail`: none without a mail
server name or without `url_fak` (lines 168-173), otherwise those of the mailable users, in
their order. -/
def Backup.reports (env : Env) (this : Backup) (r_success : Bool)
    (image incremental : Int) (resumed : Bool) (errors warnings infos : Int) (data : String) :
    List MailCall :=
  if env.mail_server.servername = "" then []
  else if !env.url_fak then []
  else env.mailable_user_ids.filterMap
    (Backup.reportFor env this r_success image incremental resumed errors warnings infos data)

/-- The calls of the mail transport that `after` has and `before` has not. -/
def World.newMails (before after : World) : List MailCall :=
  after.outbox.drop before.outbox.length

/-- The text "a, b, c" of a list of integers: their decimal texts with a comma between
neighbours. -/
def commaList : List Int → String
  | [] => ""
  | [i] => toString i
  | i :: j :: rest => toString i ++ "," ++ commaList (j :: rest)

/-- The subject as §4.2 words it. -/
def specSubject (clientname : String) (r_success : Bool) (image incremental resumed : Bool) :
    String :=
  "UrBackup: " ++ (if resumed then "Resumed " else "") ++
    (if incremental then "Incremental " else "Full ") ++
    (if image then "image " else "file ") ++
    "backup of \"" ++ clientname ++ "\" - " ++ (if r_success then "success" else "failed")

/-- The counts summary line of §4.2, each noun singular exactly when its count is 1. -/
def countsSummary (infos warnings errors : Int) : String :=
  "( " ++ nconvert infos ++ (if infos = 1 then " info, " else " infos, ") ++
    nconvert warnings ++ (if warnings = 1 then " warning, " else " warnings, ") ++
    nconvert errors ++ (if errors = 1 then " error" else " errors") ++ " )"

/-- The subject as `sendLogdataMail` builds it: the words after "Resumed" are in lower case and
a line break stands between the client name and the result. -/
def codeSubject (clientname : String) (r_success : Bool) (image incremental resumed : Bool) :
    String :=
  "UrBackup: " ++
    (if resumed then (if incremental then "Resumed incremental " else "Resumed full ")
     else (if incremental then "Incremental " else "Full ")) ++
    (if image then "image " else "file ") ++
    "backup of \"" ++ clientname ++ "\"\n" ++ (if r_success then " - success" else " - failed")

/-- The texts of a list, one after the other. -/
def joinAll : List String → String
  | [] => ""
  | x :: xs => x ++ joinAll xs

/-- A server with a mail transport and three mailable users: user 1 holds the right "all" for
the domain "all" and reports from warnings on, always; user 2 holds the right "3,7" for the
domain "logs" and reports from infos on, only on success; user 3 holds no right record at all
and reports from infos on, always. -/
def demoEnv : Env where
  mail_server := ⟨"smtp.example.org"⟩
  url_fak := true
  sendMail := fun _ => (true, "")
  mailable_user_ids := [1, 2, 3]
  getUserRight := fun u d =>
    if u = 1 ∧ d = "all" then ⟨true, "all"⟩
    else if u = 2 ∧ d = "logs" then ⟨true, "3,7"⟩
    else ⟨false, ""⟩
  getUserReportSettings := fun u =>
    if u = 1 then ⟨true, "admin@example.org", 1, 0⟩
    else if u = 2 then ⟨true, "ops@example.org;oncall@example.org", 0, 2⟩
    else if u = 3 then ⟨true, "guest@example.org", 0, 0⟩
    else ⟨false, "", 0, 0⟩
  formatUnixtime := fun t => toString t
  backupfolder := "/backups"
  os_file_sep := "/"
  os_file_prefix := fun p => p
  os_create_dir := fun _ => true
  os_directory_exists := fun _ => true
  PrettyPrintTime := fun ms => toString ms ++ "ms"
  log_sep := '-'

/-- A job for the client `clientname` with id `clientid`, as the constructor of `Backup` leaves
it (lines 31-37), with the status record of the registry idle. -/
def demoBackup (clientid : Int) (clientname : String) (log_action : LogAction)
    (is_file_backup is_incremental : Bool) : Backup where
  clientid := clientid
  clientname := clientname
  log_action := log_action
  is_file_backup := is_file_backup
  r_incremental := is_incremental
  r_resumed := false
  backup_result := false
  log_backup := true
  has_early_error := false
  should_backoff := true
  status := ⟨clientname, .sa_none, -1, 0, 0⟩
  db := false
  server_settings := false
  backup_dao := false

/-- A shared state in which nothing has happened yet. -/
def demoWorld : World where
  trace := []
  stop_backup := fun _ => true
  client_log := fun _ => []
  time_ms := 0
  unixtime := 1700000000
  last_insert_id := 0

/-- An engine that logs one info, one warning and one error for the client, takes five seconds
and returns `r`. -/
def demoEngine (r : Bool) : Engine := fun this w =>
  let w := ServerLogger.Log this.clientid "Starting backup" LL_INFO w
  let w := ServerLogger.Log this.clientid "Slow link" LL_WARNING w
  let w := ServerLogger.Log this.clientid "disk-full-error" LL_ERROR w
  (r, this, { w with time_ms := w.time_ms + 5000, unixtime := w.unixtime + 5 })

/-- The calls that `after` has and `before` has not. -/
def World.newEvents (before after : World) : List Event :=
  after.trace.drop before.trace.length

/-- The entries written with `Server->Log` that `after` has and `before` has not. -/
def World.newServerLog (before after : World) : List (String × Int) :=
  after.serverLog.drop before.serverLog.length

/-- The entries that lines 294-297 write for the sends number `first`, ..., `first + n - 1` of
the mail transport: one warning for each send that failed, none for a send that succeeded. -/
def sendFailures (sendMail : Nat → Bool × String) : Nat → Nat → List (String × Int)
  | _, 0 => []
  | first, n + 1 =>
    (if (sendMail first).1 then []
     else [("Sending mail failed. " ++ (sendMail first).2, LL_WARNING)])
      ++ sendFailures sendMail (first + 1) n

/-- The same collaborators with another mail transport. -/
def Env.withTransport (env : Env) (sendMail : Nat → Bool × String) : Env :=
  { env with sendMail := sendMail }

/-- The same collaborators with the report settings `rs` for the user `u`. -/
def Env.withReportSettings (env : Env) (u : Int) (rs : SReportSettings) : Env :=
  { env with
    getUserReportSettings := fun v => if v = u then rs else env.getUserReportSettings v }

/-- An engine that does nothing and returns `r`. -/
def silentEngine (r : Bool) : Engine := fun this w => (r, this, w)

/-- Whether a call is one that `sendLogdataMail` makes: a send of the mail transport or an
entry written with `Server->Log`. -/
def Event.isMailEvent : Event → Bool
  | .sendMail _ => true
  | .serverLog _ _ => true
  | _ => false

/-- Whether a call is a send of the mail transport. -/
def Event.isSendMail : Event → Bool
  | .sendMail _ => true
  | _ => false

/-- Whether a call writes the backup-history record or its serialized log
(`saveBackupLog`, `saveBackupLogData`). -/
def Event.isSaveBackupLog : Event → Bool
  | .saveBackupLog _ _ _ _ _ _ _ => true
  | .saveBackupLogData _ _ => true
  | _ => false

/-- Whether a call appends to the log of a client (`ServerLogger::Log`) or triggers the
statistics refresh (`ServerCleanupThread::updateStats`). -/
def Event.isLogOrStats : Event → Bool
  | .loggerLog _ _ _ => true
  | .updateStats _ => true
  | _ => false

/-- The condition of line 120 under which `Backup::operator()` calls `saveClientLogdata`. -/
def Backup.shouldSaveLog (this : Backup) : Bool :=
  (this.log_backup || this.log_action = .LogAction_AlwaysLog)
    && this.log_action ≠ .LogAction_NoLogging

/-- What the engine returns in `Backup::operator()` (line 101): its result, the job and the
shared state as it leaves them. -/
def Backup.engineResult (env : Env) (doBackup : Engine) (this : Backup) (w : World) :
    Bool × Backup × World :=
  doBackup (Backup.callBefore env this w).1 (Backup.callBefore env this w).2.1

/-- The server of `demoEnv` where the "logs" right of user 2 is written with a semicolon,
"3;7", and no other right record exists. -/
def demoEnvSemicolon : Env :=
  { demoEnv with
    getUserRight := fun u d => if u = 2 ∧ d = "logs" then ⟨true, "3;7"⟩ else ⟨false, ""⟩ }

/-- Whether one call of `sendLogdataMail` sends a report to the user `u`. -/
def Backup.sentTo (env : Env) (this : Backup) (r_success : Bool)
    (image incremental : Int) (resumed : Bool) (errors warnings infos : Int) (data : String)
    (w : World) (u : Int) : Prop :=
  ∃ m ∈ w.newMails (Backup.sendLogdataMail env this r_success image incremental resumed
    errors warnings infos data w), m.userid = u

/-- The word of a severity: "info" for 0, "warning" for 1, "error" for 2. -/
def severityWord (loglevel : Int) : String :=
  if loglevel = 0 then "info" else if loglevel = 1 then "warning" else "error"

/-- The line of the report for a log entry:
`<formatUnixtime(timestamp)>(<severityWord>): <message>` and a line break. -/
def renderedEntry (env : Env) (e : LogEntry) : String :=
  env.formatUnixtime e.time ++ "(" ++ severityWord e.loglevel ++ "): " ++ e.msg ++ "\n"

/-- The server of `demoEnv` where user 2 reports from errors on (threshold 2), always. -/
def demoEnvErrorsOnly : Env :=
  demoEnv.withReportSettings 2 ⟨true, "ops@example.org", 2, 0⟩

/-- A log of two infos and one warning. -/
def demoEntries : List LogEntry :=
  [⟨0, 1700000000, "Starting backup"⟩, ⟨1, 1700000003, "Slow link"⟩,
   ⟨0, 1700000005, "Backup succeeded"⟩]

/-- A log of one info and one error. -/
def demoEntriesError : List LogEntry :=
  [⟨0, 1700000000, "Starting backup"⟩, ⟨2, 1700000005, "disk-full-error"⟩]

/-- The arguments of a send of the mail transport, when the call is one. -/
def Event.toMail : Event → Option MailCall
  | .sendMail c => some c
  | _ => none

/-- The shared state in which `Backup::operator()` decides about the report (line 120): the
state the engine leaves, after the calls of lines 103-118. -/
def Backup.stateAtReport (env : Env) (doBackup : Engine) (this : Backup) (w : World) : World :=
  Backup.callLogResult env
    { (Backup.engineResult env doBackup this w).2.1 with
      backup_result := (Backup.engineResult env doBackup this w).1 }
    (Backup.callBefore env this w).2.2 (Backup.engineResult env doBackup this w).2.2

/-- What `ServerLogger::getLogdata` answers in `saveClientLogdata` (line 154) when it is called
from line 122: the serialized log of the client and the counts `(errors, warnings, infos)`. -/
def Backup.logdataAtReport (env : Env) (doBackup : Engine) (this : Backup) (w : World) :
    String × Int × Int × Int :=
  ServerLogger.getLogdata env (Backup.engineResult env doBackup this w).2.1.clientid
    (Backup.stateAtReport env doBackup this w)

/-! # Properties -/

/-! ## Decimal text -/

theorem digitChar_val (k : Nat) (h : k < 10) :
    (Nat.digitChar k).toNat - 48 = k ∧ (Nat.digitChar k).isDigit = true := by
  interval_cases k <;> decide

theorem toDigitsCore_spec (fuel : Nat) : ∀ (n : Nat) (ds : List Char), n < fuel →
    ∃ pre : List Char, Nat.toDigitsCore 10 fuel n ds = pre ++ ds ∧ pre ≠ [] ∧
      (∀ c ∈ pre, c.isDigit = true) ∧
      ∀ a : Nat, pre.foldl (fun a c => a * 10 + (c.toNat - 48)) a = a * 10 ^ pre.length + n := by
  induction fuel with
  | zero => intro n ds h; omega
  | succ fuel ih =>
    intro n ds h
    unfold Nat.toDigitsCore
    simp only
    have hd := digitChar_val (n % 10) (Nat.mod_lt _ (by decide))
    by_cases h0 : n / 10 = 0
    · rw [if_pos h0]
      have hm : n % 10 = n := Nat.mod_eq_of_lt (by omega)
      refine ⟨[Nat.digitChar (n % 10)], rfl, by simp, ?_, ?_⟩
      · intro c hc
        simp only [List.mem_singleton] at hc
        rw [hc]; exact hd.2
      · intro a
        simp only [List.foldl_cons, List.foldl_nil, List.length_singleton, pow_one]
        rw [hd.1, hm]
    · rw [if_neg h0]
      obtain ⟨pre, hpre, _, hdig, hval⟩ :=
        ih (n / 10) (Nat.digitChar (n % 10) :: ds) (by omega)
      refine ⟨pre ++ [Nat.digitChar (n % 10)], by rw [hpre]; simp, by simp, ?_, ?_⟩
      · intro c hc
        rcases List.mem_append.1 hc with hc | hc
        · exact hdig c hc
        · simp only [List.mem_singleton] at hc
          rw [hc]; exact hd.2
      · intro a
        rw [List.foldl_append, hval a]
        simp only [List.foldl_cons, List.foldl_nil, List.length_append, List.length_singleton]
        rw [hd.1, pow_succ]
        nlinarith [Nat.div_add_mod n 10]

/-- The decimal text of a natural number is a non-empty run of digits with that value. -/
theorem toDigits_spec (n : Nat) :
    Nat.toDigits 10 n ≠ [] ∧ (∀ c ∈ Nat.toDigits 10 n, c.isDigit = true) ∧
      digitsVal (Nat.toDigits 10 n) = n := by
  obtain ⟨pre, hpre, hne, hdig, hval⟩ := toDigitsCore_spec (n + 1) n [] (Nat.lt_succ_self n)
  have h : Nat.toDigits 10 n = pre := by
    unfold Nat.toDigits; rw [hpre]; simp
  rw [h]
  refine ⟨hne, hdig, ?_⟩
  unfold digitsVal
  rw [hval 0]; simp

theorem isDigit_bounds (c : Char) (h : c.isDigit = true) : 48 ≤ c.toNat ∧ c.toNat ≤ 57 := by
  unfold Char.isDigit at h
  simp only [Bool.and_eq_true, decide_eq_true_eq] at h
  exact ⟨h.1, h.2⟩

theorem isDigit_not_space (c : Char) (h : c.isDigit = true) : isSpaceC c = false := by
  have hb := isDigit_bounds c h
  have h1 : c ≠ ' ' := by
    intro hc; rw [hc] at hb; revert hb; decide
  unfold isSpaceC
  simp only [Bool.or_eq_false_iff, decide_eq_false_iff_not]
  refine ⟨⟨⟨⟨⟨h1, ?_⟩, ?_⟩, ?_⟩, ?_⟩, ?_⟩ <;> omega

theorem isDigit_not_sign (c : Char) (h : c.isDigit = true) : c ≠ '-' ∧ c ≠ '+' := by
  have hb := isDigit_bounds c h
  constructor <;> (intro hc; rw [hc] at hb; revert hb; decide)

theorem takeWhile_all {α : Type} (p : α → Bool) (l : List α) (h : ∀ x ∈ l, p x = true) :
    l.takeWhile p = l := by
  induction l with
  | nil => rfl
  | cons x xs ih =>
    rw [List.takeWhile_cons, h x (List.mem_cons_self _ _)]
    simp only [if_true]
    rw [ih (fun y hy => h y (List.mem_cons_of_mem _ hy))]

/-- A run of digits, followed by `rest` that does not start with a digit, reads as its value. -/
theorem atoiChars_digits (ds rest : List Char) (hne : ds ≠ [])
    (hd : ∀ c ∈ ds, c.isDigit = true) (hr : ∀ c r, rest = c :: r → c.isDigit = false) :
    atoiChars (ds ++ rest) = (digitsVal ds : Int) := by
  have htw : ∀ l : List Char, (∀ c ∈ l, c.isDigit = true) →
      (l ++ rest).takeWhile Char.isDigit = l := by
    intro l hl
    induction l with
    | nil =>
      cases rest with
      | nil => rfl
      | cons c r => simp [List.takeWhile_cons, hr c r rfl]
    | cons x xs ih =>
      rw [List.cons_append, List.takeWhile_cons, hl x (List.mem_cons_self _ _)]
      simp only [if_true]
      rw [ih (fun y hy => hl y (List.mem_cons_of_mem _ hy))]
  cases ds with
  | nil => exact absurd rfl hne
  | cons d ds =>
    have hdd := hd d (List.mem_cons_self _ _)
    have hsp := isDigit_not_space d hdd
    have hsg := isDigit_not_sign d hdd
    unfold atoiChars
    rw [List.cons_append, List.dropWhile_cons, hsp]
    simp only [Bool.false_eq_true, if_false, if_neg hsg.1, if_neg hsg.2]
    rw [← List.cons_append, htw (d :: ds) hd]

/-- A minus sign and a run of digits read as the negated value. -/
theorem atoiChars_neg_digits (ds : List Char) (hd : ∀ c ∈ ds, c.isDigit = true) :
    atoiChars ('-' :: ds) = - (digitsVal ds : Int) := by
  unfold atoiChars
  rw [List.dropWhile_cons]
  have : isSpaceC '-' = false := by decide
  rw [this]
  simp only [Bool.false_eq_true, if_false, if_true]
  rw [takeWhile_all _ _ hd]

/-- Reading the decimal text of an integer gives the integer back. -/
theorem atoiChars_toString (i : Int) : atoiChars (toString i).toList = i := by
  cases i with
  | ofNat n =>
    have h := toDigits_spec n
    have e : (toString (Int.ofNat n)).toList = Nat.toDigits 10 n ++ [] := by
      rw [List.append_nil]; rfl
    rw [e, atoiChars_digits _ _ h.1 h.2.1 (by intro c r hcr; cases hcr), h.2.2]
    rfl
  | negSucc n =>
    have h := toDigits_spec (n + 1)
    have e : (toString (Int.negSucc n)).toList = '-' :: Nat.toDigits 10 (n + 1) := rfl
    rw [e, atoiChars_neg_digits _ h.2.1, h.2.2]
    rfl

theorem wrapInt_32 (x : Int) (h1 : -2147483648 ≤ x) (h2 : x < 2147483648) :
    wrapInt 32 x = x := by
  unfold wrapInt
  norm_num
  omega

theorem wrapInt_64 (x : Int) (h1 : -9223372036854775808 ≤ x) (h2 : x < 9223372036854775808) :
    wrapInt 64 x = x := by
  unfold wrapInt
  norm_num
  omega

/-- The function `watoi` reads the decimal text of an `int` back. -/
theorem watoi_toString (i : Int) (h1 : -2147483648 ≤ i) (h2 : i < 2147483648) :
    watoi (toString i) = i := by
  unfold watoi
  rw [atoiChars_toString, wrapInt_32 i h1 h2]

/-- The function `watoi64` reads the decimal text of an `int64` back. -/
theorem watoi64_toString (i : Int) (h1 : -9223372036854775808 ≤ i)
    (h2 : i < 9223372036854775808) : watoi64 (toString i) = i := by
  unfold watoi64
  rw [atoiChars_toString, wrapInt_64 i h1 h2]

/-! ## Status publication -/

theorem published_emit (w : World) (e : Event) :
    (w.emit e).published = w.published ++ (match e with
      | .setServerStatus s => [s]
      | _ => []) := by
  cases e <;> simp [World.published, World.emit, List.filterMap_append]

theorem published_setServerStatus (s : SStatus) (w : World) :
    (ServerStatus.setServerStatus s w).published = w.published ++ [s] := by
  simp [ServerStatus.setServerStatus, published_emit]

theorem published_stopBackup (c : String) (b : Bool) (w : World) :
    (ServerStatus.stopBackup c b w).published = w.published := by
  simp [ServerStatus.stopBackup, World.published, World.emit, List.filterMap_append]

theorem published_serverLog (m : String) (l : Int) (w : World) :
    (Server.Log m l w).published = w.published := by
  simp [Server.Log, published_emit]

theorem published_createDirectoryForClient (env : Env) (this : Backup) (w : World) :
    (Backup.createDirectoryForClient env this w).2.published = w.published := by
  unfold Backup.createDirectoryForClient
  simp only
  split
  · exact published_serverLog _ _ _
  · rfl

/-- C1: after `Backup::operator()` has returned, whatever the members of the job (kind, mode,
resumed flag, logging policy, early-error flag), the engine and its result, the status record
published last has `statusaction = sa_none`, `pcdone = -1`, `hashqueuesize = 0` and
`prepare_hashqueuesize = 0`. -/
theorem C1_last_published_status_is_idle (env : Env) (doBackup : Engine) (this : Backup)
    (w : World) :
    ∃ s : SStatus, (Backup.call env doBackup this w).2.published.getLast? = some s ∧
      s.statusaction = .sa_none ∧ s.pcdone = -1 ∧ s.hashqueuesize = 0 ∧
      s.prepare_hashqueuesize = 0 := by
  simp only [Backup.call, Backup.callAfter, published_emit, published_setServerStatus,
    List.append_nil, List.getLast?_concat]
  exact ⟨_, rfl, rfl, rfl, rfl, rfl⟩

/-- C2: the status `Backup::operator()` has published last when the engine is invoked is the
status member of the job, its action follows the documented mapping from `is_file_backup`,
`r_incremental` and `r_resumed` (image runs ignore `r_resumed`), and its `pcdone` is `-1` for a
file run and `0` for an image run. -/
theorem C2_initial_status_mapping (env : Env) (this : Backup) (w : World) :
    ∃ s : SStatus, (Backup.callBefore env this w).2.1.published.getLast? = some s ∧
      (Backup.callBefore env this w).1.status = s ∧
      s.statusaction = documentedAction this.is_file_backup this.r_incremental this.r_resumed ∧
      s.pcdone = (if this.is_file_backup then -1 else 0) := by
  refine ⟨Backup.initialStatus this, ?_, rfl, ?_, ?_⟩
  · simp only [Backup.callBefore, published_emit, published_createDirectoryForClient,
      published_stopBackup, published_setServerStatus, List.append_nil, List.getLast?_concat]
    rfl
  · unfold Backup.initialStatus documentedAction
    cases this.is_file_backup <;> cases this.r_incremental <;> cases this.r_resumed <;> rfl
  · unfold Backup.initialStatus
    cases this.is_file_backup <;> cases this.r_incremental <;> cases this.r_resumed <;> rfl

/-! ## The report mail -/

theorem outbox_emit (w : World) (e : Event) :
    (w.emit e).outbox = w.outbox ++ (match e with
      | .sendMail c => [c]
      | _ => []) := by
  cases e <;> simp [World.outbox, World.emit, List.filterMap_append]

theorem outbox_serverLog (m : String) (l : Int) (w : World) :
    (Server.Log m l w).outbox = w.outbox := by
  simp [Server.Log, outbox_emit]

theorem outbox_sendLogdataMailUser (env : Env) (this : Backup) (r_success : Bool)
    (image incremental : Int) (resumed : Bool) (errors warnings infos : Int) (data : String)
    (userid : Int) (w : World) :
    (Backup.sendLogdataMailUser env this r_success image incremental resumed
        errors warnings infos data userid w).outbox =
      w.outbox ++ (Backup.reportFor env this r_success image incremental resumed
        errors warnings infos data userid).toList := by
  unfold Backup.sendLogdataMailUser Backup.reportFor
  by_cases h1 : Backup.hasLogRight env this userid = true
  · by_cases h2 : (env.getUserReportSettings userid).exists = true
    · by_cases h3 : Backup.reportGate (env.getUserReportSettings userid).report_loglevel
          (env.getUserReportSettings userid).report_sendonly r_success errors warnings infos = true
      · simp only [h1, h2, h3, and_self, if_true]
        cases (env.sendMail w.outbox.length).1 <;>
          simp [outbox_emit, outbox_serverLog]
      · simp [h1, h2, h3]
    · simp [h1, h2]
  · simp [h1]

theorem outbox_foldl_users (env : Env) (this : Backup) (r_success : Bool)
    (image incremental : Int) (resumed : Bool) (errors warnings infos : Int) (data : String)
    (users : List Int) : ∀ w : World,
    (users.foldl (fun w userid =>
        Backup.sendLogdataMailUser env this r_success image incremental resumed
          errors warnings infos data userid w) w).outbox =
      w.outbox ++ users.filterMap (Backup.reportFor env this r_success image incremental resumed
        errors warnings infos data) := by
  induction users with
  | nil => intro w; simp
  | cons u us ih =>
    intro w
    rw [List.foldl_cons, ih, outbox_sendLogdataMailUser, List.filterMap_cons]
    cases Backup.reportFor env this r_success image incremental resumed
      errors warnings infos data u <;> simp

/-- The mails of one call of `sendLogdataMail`, when the mail transport is configured: one for
each mailable user that passes the access check, has report settings and is gated in. -/
theorem newMails_sendLogdataMail (env : Env) (this : Backup) (r_success : Bool)
    (image incremental : Int) (resumed : Bool) (errors warnings infos : Int) (data : String)
    (w : World) (hmail : env.mail_server.servername ≠ "") (hurl : env.url_fak = true) :
    w.newMails (Backup.sendLogdataMail env this r_success image incremental resumed
        errors warnings infos data w) =
      env.mailable_user_ids.filterMap (Backup.reportFor env this r_success image incremental
        resumed errors warnings infos data) := by
  unfold World.newMails Backup.sendLogdataMail
  rw [if_neg hmail, hurl]
  simp only [Bool.not_true, Bool.false_eq_true, if_false]
  rw [outbox_foldl_users, List.drop_left]

/-- Without a mail server name or without `url_fak` no mail is sent. -/
theorem newMails_sendLogdataMail_off (env : Env) (this : Backup) (r_success : Bool)
    (image incremental : Int) (resumed : Bool) (errors warnings infos : Int) (data : String)
    (w : World) (hoff : env.mail_server.servername = "" ∨ env.url_fak = false) :
    w.newMails (Backup.sendLogdataMail env this r_success image incremental resumed
        errors warnings infos data w) = [] := by
  unfold World.newMails Backup.sendLogdataMail
  rcases hoff with h | h
  · rw [if_pos h]; simp
  · by_cases h0 : env.mail_server.servername = ""
    · rw [if_pos h0]; simp
    · rw [if_neg h0, h]; simp

theorem mem_filterMap_reportFor (env : Env) (this : Backup) (r_success : Bool)
    (image incremental : Int) (resumed : Bool) (errors warnings infos : Int) (data : String)
    (users : List Int) (m : MailCall) :
    m ∈ users.filterMap (Backup.reportFor env this r_success image incremental resumed
        errors warnings infos data) ↔
      m.userid ∈ users ∧ Backup.reportFor env this r_success image incremental resumed
        errors warnings infos data m.userid = some m := by
  rw [List.mem_filterMap]
  constructor
  · rintro ⟨u, hu, hr⟩
    have : m.userid = u := by
      unfold Backup.reportFor at hr
      split at hr
      · cases hr; rfl
      · cases hr
    rw [this]; exact ⟨hu, hr⟩
  · rintro ⟨hu, hr⟩
    exact ⟨m.userid, hu, hr⟩

/-! ## Access rights -/

/-- The right record of a user for a domain, read as `getUserRights` reads it (lines 312-320). -/
theorem getUserRights_all (env : Env) (userid : Int) :
    Backup.getUserRights env userid "all" =
      if (env.getUserRight userid "all").exists = true then (env.getUserRight userid "all").value
      else "none" := by
  rw [Backup.getUserRights]
  simp

theorem getUserRights_of_ne (env : Env) (userid : Int) (domain : String) (h : domain ≠ "all") :
    Backup.getUserRights env userid domain =
      if Backup.getUserRights env userid "all" = "all" then "all"
      else if (env.getUserRight userid domain).exists = true then
        (env.getUserRight userid domain).value
      else "none" := by
  rw [Backup.getUserRights]
  simp [h]

theorem getUserRights_of_all_all (env : Env) (userid : Int) (domain : String)
    (h1 : (env.getUserRight userid "all").exists = true)
    (h2 : (env.getUserRight userid "all").value = "all") :
    Backup.getUserRights env userid domain = "all" := by
  have hall : Backup.getUserRights env userid "all" = "all" := by
    rw [getUserRights_all, if_pos h1, h2]
  by_cases h : domain = "all"
  · rw [h, hall]
  · rw [getUserRights_of_ne env userid domain h, if_pos hall]

theorem hasLogRight_of_all_all (env : Env) (this : Backup) (userid : Int)
    (h1 : (env.getUserRight userid "all").exists = true)
    (h2 : (env.getUserRight userid "all").value = "all") :
    Backup.hasLogRight env this userid = true := by
  unfold Backup.hasLogRight
  simp [getUserRights_of_all_all env userid "logs" h1 h2]

/-- The access check for a user without an "all" override and with a "logs" record: the tokens
of the record's value are compared with the client id. -/
theorem hasLogRight_of_logs (env : Env) (this : Backup) (userid : Int)
    (hall : Backup.getUserRights env userid "all" ≠ "all")
    (hex : (env.getUserRight userid "logs").exists = true)
    (hv : (env.getUserRight userid "logs").value ≠ "all") :
    Backup.hasLogRight env this userid =
      (Tokenize (env.getUserRight userid "logs").value ",").foldl
        (fun has_r tok => if watoi tok = this.clientid then true else has_r) false := by
  unfold Backup.hasLogRight
  have e : Backup.getUserRights env userid "logs" = (env.getUserRight userid "logs").value := by
    rw [getUserRights_of_ne env userid "logs" (by decide), if_neg hall, if_pos hex]
  simp only [e]
  rw [if_pos hv]

theorem watoi_none : watoi "none" = 0 := by
  decide

/-- The access check for a user with neither a "logs" nor an "all" record: `getUserRights`
answers "none", whose one token reads as the number 0. -/
theorem hasLogRight_no_records (env : Env) (this : Backup) (userid : Int)
    (h1 : (env.getUserRight userid "logs").exists = false)
    (h2 : (env.getUserRight userid "all").exists = false) :
    Backup.hasLogRight env this userid = decide (this.clientid = 0) := by
  have hall : Backup.getUserRights env userid "all" = "none" := by
    rw [getUserRights_all, h2]; rfl
  have hlogs : Backup.getUserRights env userid "logs" = "none" := by
    rw [getUserRights_of_ne env userid "logs" (by decide), hall, h1]; rfl
  unfold Backup.hasLogRight
  simp only [hlogs]
  have ht : Tokenize "none" "," = ["none"] := by decide
  rw [if_pos (by decide), ht]
  simp only [List.foldl_cons, List.foldl_nil, watoi_none]
  by_cases h : this.clientid = 0
  · simp [h]
  · have h' : ¬ (0 = this.clientid) := fun e => h e.symm
    simp [h, h']

/-! ## Gating of the report -/

theorem reportGate_iff (report_loglevel report_sendonly : Int) (r_success : Bool)
    (errors warnings infos : Int) :
    Backup.reportGate report_loglevel report_sendonly r_success errors warnings infos = true ↔
      ((report_loglevel = 0 ∧ infos > 0) ∨ (report_loglevel ≤ 1 ∧ warnings > 0) ∨
          (report_loglevel ≤ 2 ∧ errors > 0)) ∧
        (report_sendonly = 0 ∨ (report_sendonly = 1 ∧ r_success = false) ∨
          (report_sendonly = 2 ∧ r_success = true)) := by
  unfold Backup.reportGate
  simp only [Bool.and_eq_true, Bool.or_eq_true, beq_iff_eq, decide_eq_true_eq,
    Bool.not_eq_true', or_assoc]

/-- A mailable user gets a mail from one call of `sendLogdataMail` with a configured transport
exactly when the access check, the report settings and the gating condition let it pass. -/
theorem sent_to_user_iff (env : Env) (this : Backup) (r_success : Bool)
    (image incremental : Int) (resumed : Bool) (errors warnings infos : Int) (data : String)
    (w : World) (u : Int) (hmail : env.mail_server.servername ≠ "") (hurl : env.url_fak = true)
    (hu : u ∈ env.mailable_user_ids) :
    (∃ m ∈ w.newMails (Backup.sendLogdataMail env this r_success image incremental resumed
        errors warnings infos data w), m.userid = u) ↔
      (Backup.hasLogRight env this u = true ∧ (env.getUserReportSettings u).exists = true ∧
        Backup.reportGate (env.getUserReportSettings u).report_loglevel
          (env.getUserReportSettings u).report_sendonly r_success errors warnings infos
          = true) := by
  rw [newMails_sendLogdataMail env this r_success image incremental resumed errors warnings
    infos data w hmail hurl]
  constructor
  · rintro ⟨m, hm, hmu⟩
    rw [mem_filterMap_reportFor] at hm
    have h := hm.2
    rw [hmu] at h
    unfold Backup.reportFor at h
    split at h
    · assumption
    · cases h
  · intro h
    refine ⟨⟨u, Tokenize (env.getUserReportSettings u).report_mail ",;",
      Backup.mailSubject this r_success image incremental resumed,
      Backup.mailBody env this image incremental resumed errors warnings infos data⟩, ?_, rfl⟩
    rw [mem_filterMap_reportFor]
    refine ⟨hu, ?_⟩
    unfold Backup.reportFor
    rw [if_pos h]

/-- C3: with a configured mail transport, a mailable user who passes the access check and has
report settings with threshold `threshold` (Info=0, Warning=1, Error=2) and send policy `policy`
(Always=0, OnlyOnFailure=1, OnlyOnSuccess=2) gets a report from `sendLogdataMail` if and only if
`((threshold==0 && infos>0) || (threshold<=1 && warnings>0) || (threshold<=2 && errors>0)) &&
(policy==0 || (policy==1 && !success) || (policy==2 && success))`, for every success flag and
all counts. -/
theorem C3_report_sent_iff_gate (env : Env) (this : Backup) (r_success : Bool)
    (image incremental : Int) (resumed : Bool) (errors warnings infos : Int) (data : String)
    (w : World) (u : Int) (mail : String) (threshold policy : Int)
    (hmail : env.mail_server.servername ≠ "") (hurl : env.url_fak = true)
    (hu : u ∈ env.mailable_user_ids)
    (hauth : Backup.hasLogRight env this u = true)
    (hset : env.getUserReportSettings u = ⟨true, mail, threshold, policy⟩) :
    (∃ m ∈ w.newMails (Backup.sendLogdataMail env this r_success image incremental resumed
        errors warnings infos data w), m.userid = u) ↔
      (((threshold = 0 ∧ infos > 0) ∨ (threshold ≤ 1 ∧ warnings > 0) ∨
          (threshold ≤ 2 ∧ errors > 0)) ∧
        (policy = 0 ∨ (policy = 1 ∧ r_success = false) ∨ (policy = 2 ∧ r_success = true))) := by
  rw [sent_to_user_iff env this r_success image incremental resumed errors warnings infos data
    w u hmail hurl hu, hset, reportGate_iff]
  simp [hauth]

/-- Witness of C3: user 1 of `demoEnv` (threshold Warning, policy Always), client 5, a
successful run with 2 infos, 1 warning and no error. -/
theorem C3_report_sent_iff_gate_witness :
    (∃ m ∈ demoWorld.newMails (Backup.sendLogdataMail demoEnv
        (demoBackup 5 "alpha" .LogAction_LogIfNotDisabled true true) true 0 1 false
        0 1 2 "" demoWorld), m.userid = 1) ↔
      ((((1 : Int) = 0 ∧ (2 : Int) > 0) ∨ ((1 : Int) ≤ 1 ∧ (1 : Int) > 0) ∨
          ((1 : Int) ≤ 2 ∧ (0 : Int) > 0)) ∧
        ((0 : Int) = 0 ∨ ((0 : Int) = 1 ∧ true = false) ∨ ((0 : Int) = 2 ∧ true = true))) :=
  C3_report_sent_iff_gate demoEnv (demoBackup 5 "alpha" .LogAction_LogIfNotDisabled true true)
    true 0 1 false 0 1 2 "" demoWorld 1 "admin@example.org" 1 0 (by decide) rfl (by decide)
    (hasLogRight_of_all_all _ _ _ rfl rfl) rfl

/-- C4, the code at client id 0: user 3 of `demoEnv` has neither a "logs" nor an "all" right
record, yet for the client with id 0 the access check of `sendLogdataMail` gives
`has_r = true`, and the user gets the report of that client. -/
theorem C4_no_right_records_client_zero_authorized :
    (demoEnv.getUserRight 3 "logs").exists = false ∧
    (demoEnv.getUserRight 3 "all").exists = false ∧
    Backup.hasLogRight demoEnv (demoBackup 0 "alpha" .LogAction_LogIfNotDisabled true false) 3
      = true ∧
    ∃ m ∈ demoWorld.newMails (Backup.sendLogdataMail demoEnv
        (demoBackup 0 "alpha" .LogAction_LogIfNotDisabled true false) true 0 0 false
        0 0 1 "" demoWorld), m.userid = 3 := by
  have h : Backup.hasLogRight demoEnv
      (demoBackup 0 "alpha" .LogAction_LogIfNotDisabled true false) 3 = true := by
    rw [hasLogRight_no_records _ _ _ rfl rfl]; rfl
  refine ⟨rfl, rfl, h, ?_⟩
  rw [sent_to_user_iff _ _ _ _ _ _ _ _ _ _ _ _ (by decide) rfl (by decide)]
  exact ⟨h, rfl, by decide⟩

/-- C5: a user whose right record for the domain "all" has the value "all" gets "all" from
`getUserRights` for every domain, whatever record that domain has, and passes the access check
of `sendLogdataMail` for every client. -/
theorem C5_all_right_overrides (env : Env) (userid : Int)
    (h1 : (env.getUserRight userid "all").exists = true)
    (h2 : (env.getUserRight userid "all").value = "all") :
    (∀ domain : String, Backup.getUserRights env userid domain = "all") ∧
      ∀ this : Backup, Backup.hasLogRight env this userid = true :=
  ⟨fun domain => getUserRights_of_all_all env userid domain h1 h2,
   fun this => hasLogRight_of_all_all env this userid h1 h2⟩

/-- Witness of C5: user 1 of `demoEnv`. -/
theorem C5_all_right_overrides_witness :
    (∀ domain : String, Backup.getUserRights demoEnv 1 domain = "all") ∧
      ∀ this : Backup, Backup.hasLogRight demoEnv this 1 = true :=
  C5_all_right_overrides demoEnv 1 rfl rfl

/-! ## Lists of client ids -/

/-- The decimal text of an integer is not empty and made of digits and at most a minus sign. -/
theorem toString_int_chars (i : Int) :
    (toString i).toList ≠ [] ∧ ∀ c ∈ (toString i).toList, c.isDigit = true ∨ c = '-' := by
  cases i with
  | ofNat n =>
    have h := toDigits_spec n
    have e : (toString (Int.ofNat n)).toList = Nat.toDigits 10 n := rfl
    rw [e]
    exact ⟨h.1, fun c hc => Or.inl (h.2.1 c hc)⟩
  | negSucc n =>
    have h := toDigits_spec (n + 1)
    have e : (toString (Int.negSucc n)).toList = '-' :: Nat.toDigits 10 (n + 1) := rfl
    rw [e]
    refine ⟨by simp, fun c hc => ?_⟩
    rcases List.mem_cons.1 hc with hc | hc
    · exact Or.inr hc
    · exact Or.inl (h.2.1 c hc)

theorem tokenizeChars_token (seps t : List Char) (ht : ∀ c ∈ t, seps.contains c = false) :
    ∀ rest cur : List Char,
      tokenizeChars seps (t ++ rest) cur = tokenizeChars seps rest (cur ++ t) := by
  induction t with
  | nil => intro rest cur; simp
  | cons x xs ih =>
    intro rest cur
    rw [List.cons_append, tokenizeChars, ht x (List.mem_cons_self _ _)]
    simp only [Bool.false_eq_true, if_false]
    rw [ih (fun c hc => ht c (List.mem_cons_of_mem _ hc))]
    simp

theorem comma_contains (c : Char) (h : c.isDigit = true ∨ c = '-') :
    [','].contains c = false := by
  have hc : c ≠ ',' := by
    rcases h with h | h
    · have hb := isDigit_bounds c h
      intro e; rw [e] at hb; revert hb; decide
    · rw [h]; decide
  simp [hc]

theorem commaList_cons_cons (i j : Int) (rest : List Int) :
    (commaList (i :: j :: rest)).toList =
      (toString i).toList ++ ',' :: (commaList (j :: rest)).toList := by
  simp [commaList]

theorem tokenizeChars_commaList (ids : List Int) (hne : ids ≠ []) :
    tokenizeChars [','] (commaList ids).toList [] = ids.map fun i => (toString i).toList := by
  induction ids with
  | nil => exact absurd rfl hne
  | cons i rest ih =>
    have hi := toString_int_chars i
    have hsep : ∀ c ∈ (toString i).toList, [','].contains c = false :=
      fun c hc => comma_contains c (hi.2 c hc)
    cases rest with
    | nil =>
      have e : (commaList [i]).toList = (toString i).toList ++ [] := by simp [commaList]
      rw [e, tokenizeChars_token _ _ hsep, tokenizeChars]
      have hne' : (toString i).toList.isEmpty = false := by
        cases hs : (toString i).toList with
        | nil => exact absurd hs hi.1
        | cons c cs => rfl
      simp only [List.nil_append, hne', Bool.false_eq_true, if_false, List.map_cons,
        List.map_nil]
    | cons j rest =>
      rw [commaList_cons_cons, tokenizeChars_token _ _ hsep, tokenizeChars]
      simp only [List.contains_cons, beq_self_eq_true, Bool.true_or, if_true, List.nil_append,
        List.map_cons]
      rw [ih (by simp)]
      simp

/-- The tokens of the text of a non-empty list of integers are the decimal texts of its
elements. -/
theorem Tokenize_commaList (ids : List Int) (hne : ids ≠ []) :
    Tokenize (commaList ids) "," = ids.map fun i => toString i := by
  unfold Tokenize
  have e : ",".toList = [','] := rfl
  rw [e, tokenizeChars_commaList ids hne, List.map_map]
  apply List.map_congr_left
  intro i _
  rfl

theorem commaList_ne_all (ids : List Int) (hne : ids ≠ []) : commaList ids ≠ "all" := by
  intro h
  have h' : (commaList ids).toList = ['a', 'l', 'l'] := by rw [h]; rfl
  have key : ∀ i : Int, ∀ tl : List Char, (toString i).toList ++ tl ≠ ['a', 'l', 'l'] := by
    intro i tl e
    have hi := toString_int_chars i
    cases hs : (toString i).toList with
    | nil => exact hi.1 hs
    | cons c cs =>
      rw [hs] at e
      have hc := hi.2 c (by rw [hs]; exact List.mem_cons_self _ _)
      have : c = 'a' := by
        simp only [List.cons_append, List.cons.injEq] at e
        exact e.1
      rw [this] at hc
      revert hc; decide
  cases ids with
  | nil => exact hne rfl
  | cons i rest =>
    cases rest with
    | nil =>
      have e : (commaList [i]).toList = (toString i).toList ++ [] := by simp [commaList]
      rw [e] at h'
      exact key i _ h'
    | cons j rest =>
      rw [commaList_cons_cons] at h'
      exact key i _ h'

theorem foldl_has_r (clientid : Int) (toks : List String) : ∀ b : Bool,
    toks.foldl (fun has_r tok => if watoi tok = clientid then true else has_r) b = true ↔
      b = true ∨ ∃ tok ∈ toks, watoi tok = clientid := by
  induction toks with
  | nil => intro b; simp
  | cons t ts ih =>
    intro b
    rw [List.foldl_cons, ih]
    by_cases h : watoi t = clientid
    · simp [h]
    · simp [h]

/-- C6: for a user without an "all" = "all" override whose "logs" right is the text of a
non-empty list `ids` of `int` values, decimal and separated by commas, the access check of
`sendLogdataMail` gives `has_r = true` if and only if the client id is an element of `ids`. -/
theorem C6_logs_list_authorizes_members (env : Env) (this : Backup) (userid : Int)
    (ids : List Int) (hne : ids ≠ [])
    (hrange : ∀ i ∈ ids, -2147483648 ≤ i ∧ i < 2147483648)
    (hall : ¬ ((env.getUserRight userid "all").exists = true ∧
      (env.getUserRight userid "all").value = "all"))
    (hlogs : env.getUserRight userid "logs" = ⟨true, commaList ids⟩) :
    Backup.hasLogRight env this userid = true ↔ this.clientid ∈ ids := by
  have hall' : Backup.getUserRights env userid "all" ≠ "all" := by
    rw [getUserRights_all]
    by_cases h : (env.getUserRight userid "all").exists = true
    · rw [if_pos h]; exact fun e => hall ⟨h, e⟩
    · rw [if_neg h]; decide
  rw [hasLogRight_of_logs env this userid hall' (by rw [hlogs])
    (by rw [hlogs]; exact commaList_ne_all ids hne), hlogs]
  simp only
  rw [Tokenize_commaList ids hne, foldl_has_r]
  constructor
  · rintro (h | ⟨tok, htok, hw⟩)
    · cases h
    · obtain ⟨i, hi, rfl⟩ := List.mem_map.1 htok
      rw [watoi_toString i (hrange i hi).1 (hrange i hi).2] at hw
      rw [← hw]; exact hi
  · intro h
    refine Or.inr ⟨toString this.clientid, List.mem_map.2 ⟨_, h, rfl⟩, ?_⟩
    exact watoi_toString _ (hrange _ h).1 (hrange _ h).2

/-- Witness of C6: user 2 of `demoEnv` has the "logs" right "3,7": clients 3 and 7 pass the
access check, client 5 does not. -/
theorem C6_logs_list_authorizes_members_witness :
    commaList [3, 7] = "3,7" ∧
    (Backup.hasLogRight demoEnv (demoBackup 3 "alpha" .LogAction_LogIfNotDisabled true false) 2
      = true ↔ (3 : Int) ∈ [(3 : Int), 7]) ∧
    (Backup.hasLogRight demoEnv (demoBackup 7 "beta" .LogAction_LogIfNotDisabled true false) 2
      = true ↔ (7 : Int) ∈ [(3 : Int), 7]) ∧
    (Backup.hasLogRight demoEnv (demoBackup 5 "gamma" .LogAction_LogIfNotDisabled true false) 2
      = true ↔ (5 : Int) ∈ [(3 : Int), 7]) :=
  ⟨by decide,
   C6_logs_list_authorizes_members demoEnv _ 2 [3, 7] (by decide) (by decide) (by decide) rfl,
   C6_logs_list_authorizes_members demoEnv _ 2 [3, 7] (by decide) (by decide) (by decide) rfl,
   C6_logs_list_authorizes_members demoEnv _ 2 [3, 7] (by decide) (by decide) (by decide) rfl⟩

/-! ## Subject and text of the report -/

theorem mem_newMails_of_reportFor (env : Env) (this : Backup) (r_success : Bool)
    (image incremental : Int) (resumed : Bool) (errors warnings infos : Int) (data : String)
    (w : World) (u : Int) (m : MailCall) (hmail : env.mail_server.servername ≠ "")
    (hurl : env.url_fak = true) (hu : u ∈ env.mailable_user_ids)
    (hr : Backup.reportFor env this r_success image incremental resumed
      errors warnings infos data u = some m) :
    m ∈ w.newMails (Backup.sendLogdataMail env this r_success image incremental resumed
      errors warnings infos data w) := by
  rw [newMails_sendLogdataMail env this r_success image incremental resumed errors warnings
    infos data w hmail hurl, List.mem_filterMap]
  exact ⟨u, hu, hr⟩

/-- Every mail of one call of `sendLogdataMail` carries the subject and the text built from the
arguments of the call. -/
theorem newMails_subj_msg (env : Env) (this : Backup) (r_success : Bool)
    (image incremental : Int) (resumed : Bool) (errors warnings infos : Int) (data : String)
    (w : World) (m : MailCall)
    (hm : m ∈ w.newMails (Backup.sendLogdataMail env this r_success image incremental resumed
      errors warnings infos data w)) :
    m.subj = Backup.mailSubject this r_success image incremental resumed ∧
      m.msg = Backup.mailBody env this image incremental resumed errors warnings infos data := by
  by_cases hoff : env.mail_server.servername = "" ∨ env.url_fak = false
  · rw [newMails_sendLogdataMail_off env this r_success image incremental resumed errors warnings
      infos data w hoff] at hm
    cases hm
  · have hmail : env.mail_server.servername ≠ "" := fun h => hoff (Or.inl h)
    have hurl : env.url_fak = true := by
      cases h : env.url_fak
      · exact absurd (Or.inr h) hoff
      · rfl
    rw [newMails_sendLogdataMail env this r_success image incremental resumed errors warnings
      infos data w hmail hurl, mem_filterMap_reportFor] at hm
    have h := hm.2
    unfold Backup.reportFor at h
    split at h
    · have e := Option.some.inj h
      rw [← e]
      exact ⟨rfl, rfl⟩
    · cases h

theorem toList_append (a b : String) : (a ++ b).toList = a.toList ++ b.toList := by
  simp [String.toList]

theorem mailSubject_eq (this : Backup) (r_success : Bool) (image incremental : Int)
    (resumed : Bool) :
    Backup.mailSubject this r_success image incremental resumed =
      codeSubject this.clientname r_success (decide (image > 0)) (decide (incremental > 0))
        resumed := by
  unfold Backup.mailSubject codeSubject
  by_cases hi : incremental > 0 <;> by_cases hm : image > 0 <;> cases resumed <;>
    cases r_success <;>
    simp only [hi, hm, decide_True, decide_False, if_true, if_false, Bool.false_eq_true,
      Bool.not_true, Bool.not_false] <;>
    rfl

/-- The mail that user 1 of `demoEnv` gets about the client "alpha" (id 5). -/
theorem demo_mail_mem (r_success : Bool) (image incremental : Int) (resumed : Bool) :
    (⟨1, ["admin@example.org"],
        Backup.mailSubject (demoBackup 5 "alpha" .LogAction_LogIfNotDisabled true true)
          r_success image incremental resumed,
        Backup.mailBody demoEnv (demoBackup 5 "alpha" .LogAction_LogIfNotDisabled true true)
          image incremental resumed 0 1 2 ""⟩ : MailCall) ∈
      demoWorld.newMails (Backup.sendLogdataMail demoEnv
        (demoBackup 5 "alpha" .LogAction_LogIfNotDisabled true true) r_success image incremental
        resumed 0 1 2 "" demoWorld) := by
  have hg : Backup.reportGate (demoEnv.getUserReportSettings 1).report_loglevel
      (demoEnv.getUserReportSettings 1).report_sendonly r_success 0 1 2 = true := by
    cases r_success <;> decide
  have ht : Tokenize (demoEnv.getUserReportSettings 1).report_mail ",;"
      = ["admin@example.org"] := by decide
  apply mem_newMails_of_reportFor demoEnv _ r_success image incremental resumed 0 1 2 ""
    demoWorld 1 _ (by decide) rfl (by decide)
  unfold Backup.reportFor
  rw [if_pos ⟨hasLogRight_of_all_all _ _ _ rfl rfl, rfl, hg⟩, ht]

/-- C7, as the spec words it, fails: the report of a successful resumed incremental file backup
of "alpha" has the subject "UrBackup: Resumed incremental file backup of "alpha"⏎ - success",
which is not the documented one and does not contain "Resumed Incremental file backup"; and the
report of a successful fresh full file backup has a line break before " - success". -/
theorem C7_subject_counterexample :
    (∃ m ∈ demoWorld.newMails (Backup.sendLogdataMail demoEnv
        (demoBackup 5 "alpha" .LogAction_LogIfNotDisabled true true) true 0 1 true
        0 1 2 "" demoWorld),
      m.subj = "UrBackup: Resumed incremental file backup of \"alpha\"\n - success" ∧
      m.subj ≠ specSubject "alpha" true false true true ∧
      ¬ ("Resumed Incremental file backup".toList <:+: m.subj.toList)) ∧
    (∃ m ∈ demoWorld.newMails (Backup.sendLogdataMail demoEnv
        (demoBackup 5 "alpha" .LogAction_LogIfNotDisabled true true) true 0 0 false
        0 1 2 "" demoWorld),
      m.subj = "UrBackup: Full file backup of \"alpha\"\n - success" ∧
      m.subj ≠ specSubject "alpha" true false false false) :=
  ⟨⟨_, demo_mail_mem true 0 1 true, by decide, by decide, by decide⟩,
   ⟨_, demo_mail_mem true 0 0 false, by decide, by decide⟩⟩

/-- C7, amended: every report mail of `sendLogdataMail` has the subject
"UrBackup: " + ("Resumed incremental " | "Resumed full " | "Incremental " | "Full ") +
("image " | "file ") + "backup of "<clientName>"" + line break + (" - success" | " - failed"),
where `image > 0` selects "image" and `incremental > 0` selects "incremental"; for a resumed
incremental file backup that succeeded the subject contains "Resumed incremental file backup"
and "- success". -/
theorem C7_subject_amended (env : Env) (this : Backup) (r_success : Bool)
    (image incremental : Int) (resumed : Bool) (errors warnings infos : Int) (data : String)
    (w : World) (m : MailCall)
    (hm : m ∈ w.newMails (Backup.sendLogdataMail env this r_success image incremental resumed
      errors warnings infos data w)) :
    m.subj = codeSubject this.clientname r_success (decide (image > 0))
        (decide (incremental > 0)) resumed ∧
      (resumed = true → incremental > 0 → ¬ image > 0 → r_success = true →
        "Resumed incremental file backup".toList <:+: m.subj.toList ∧
        "- success".toList <:+: m.subj.toList) := by
  have h := (newMails_subj_msg env this r_success image incremental resumed errors warnings
    infos data w m hm).1
  rw [mailSubject_eq] at h
  refine ⟨h, ?_⟩
  intro hr hi hf hs
  rw [h, hr, hs]
  simp only [codeSubject, hi, hf, decide_True, decide_False, if_true, Bool.false_eq_true,
    if_false]
  constructor
  · have h1 : "Resumed incremental file backup".toList <:+:
        ("UrBackup: " ++ "Resumed incremental " ++ "file " ++ "backup of \"").toList := by
      decide
    refine h1.trans (List.IsPrefix.isInfix ?_)
    refine ⟨this.clientname.toList ++ ("\"\n".toList ++ " - success".toList), ?_⟩
    simp only [toList_append, List.append_assoc]
  · have h1 : "- success".toList <:+: " - success".toList := by decide
    refine h1.trans (List.IsSuffix.isInfix ?_)
    rw [toList_append]
    exact List.suffix_append _ _

/-- Witness of C7 (amended): the report of a successful resumed incremental file backup of
"alpha" to user 1 of `demoEnv`. -/
theorem C7_subject_amended_witness :
    Backup.mailSubject (demoBackup 5 "alpha" .LogAction_LogIfNotDisabled true true)
        true 0 1 true = codeSubject "alpha" true (decide ((0 : Int) > 0))
        (decide ((1 : Int) > 0)) true ∧
      (true = true → (1 : Int) > 0 → ¬ (0 : Int) > 0 → true = true →
        "Resumed incremental file backup".toList <:+:
          (Backup.mailSubject (demoBackup 5 "alpha" .LogAction_LogIfNotDisabled true true)
            true 0 1 true).toList ∧
        "- success".toList <:+:
          (Backup.mailSubject (demoBackup 5 "alpha" .LogAction_LogIfNotDisabled true true)
            true 0 1 true).toList) :=
  C7_subject_amended demoEnv (demoBackup 5 "alpha" .LogAction_LogIfNotDisabled true true)
    true 0 1 true 0 1 2 "" demoWorld _ (demo_mail_mem true 0 1 true)

/-! ## The log wire format -/

theorem findSub_dash (t rest : List Char) (ht : ∀ c ∈ t, c ≠ '-') :
    findSub ['-'] (t ++ '-' :: rest) = some t.length := by
  induction t with
  | nil => simp [findSub, List.isPrefixOf]
  | cons x xs ih =>
    have hx : x ≠ '-' := ht x (List.mem_cons_self _ _)
    have hx' : ('-' == x) = false := by
      simp only [beq_eq_false_iff_ne, ne_eq]
      exact fun e => hx e.symm
    rw [List.cons_append, findSub, ih (fun c hc => ht c (List.mem_cons_of_mem _ hc))]
    simp [List.isPrefixOf, hx']

theorem getuntil_dash (t rest : List Char) (ht : ∀ c ∈ t, c ≠ '-') :
    getuntil "-" (String.mk (t ++ '-' :: rest)) = String.mk t := by
  unfold getuntil
  have e : "-".toList = ['-'] := rfl
  have e' : (String.mk (t ++ '-' :: rest)).toList = t ++ '-' :: rest := rfl
  rw [e, e', findSub_dash t rest ht]
  simp

theorem getafter_dash (t rest : List Char) (ht : ∀ c ∈ t, c ≠ '-') :
    getafter "-" (String.mk (t ++ '-' :: rest)) = String.mk rest := by
  unfold getafter
  have e : "-".toList = ['-'] := rfl
  have e' : (String.mk (t ++ '-' :: rest)).toList = t ++ '-' :: rest := rfl
  rw [e, e', findSub_dash t rest ht]
  simp

/-- The digit of a severity 0, 1 or 2 reads back as the severity. -/
theorem level_digit (loglevel : Int) (hl : loglevel = 0 ∨ loglevel = 1 ∨ loglevel = 2) :
    ∃ d : Char, (toString loglevel).toList = [d] ∧ watoi (String.singleton d) = loglevel := by
  rcases hl with h | h | h <;> subst h
  · exact ⟨'0', rfl, by decide⟩
  · exact ⟨'1', rfl, by decide⟩
  · exact ⟨'2', rfl, by decide⟩

/-- The decimal text of a number that is not negative has no minus sign. -/
theorem toString_nonneg_no_dash (t : Int) (h : 0 ≤ t) : ∀ c ∈ (toString t).toList, c ≠ '-' := by
  cases t with
  | ofNat n =>
    intro c hc
    have e : (toString (Int.ofNat n)).toList = Nat.toDigits 10 n := rfl
    rw [e] at hc
    exact (isDigit_not_sign c ((toDigits_spec n).2.1 c hc)).1
  | negSucc n => exact absurd h (by simp [Int.negSucc_lt_zero])

/-- C8: a log entry with severity 0, 1 or 2, a unix timestamp that is not negative (and fits an
`int64`) and any message, written as `<severityDigit><sep><timestamp>-<message>` with any
delimiter `sep`, is read back by the line parser of `sendLogdataMail` (first character, erase
two characters, text before and after the first "-") with the same severity, timestamp and
message. -/
theorem C8_log_line_round_trip (sep : Char) (loglevel time : Int) (msg : String)
    (hl : loglevel = 0 ∨ loglevel = 1 ∨ loglevel = 2)
    (ht0 : 0 ≤ time) (ht1 : time < 9223372036854775808) :
    Backup.parseLogLine (serializeLogEntry sep ⟨loglevel, time, msg⟩) = (loglevel, time, msg) := by
  obtain ⟨d, hd, hw⟩ := level_digit loglevel hl
  have hline : (serializeLogEntry sep ⟨loglevel, time, msg⟩).toList =
      d :: sep :: ((toString time).toList ++ '-' :: msg.toList) := by
    unfold serializeLogEntry
    simp only [toList_append, hd]
    simp [String.toList, String.singleton]
  have hnd := toString_nonneg_no_dash time ht0
  unfold Backup.parseLogLine
  simp only [hline, List.drop_succ_cons, List.drop_zero]
  rw [getuntil_dash _ _ hnd, getafter_dash _ _ hnd, hw]
  have e1 : String.mk (toString time).toList = toString time := rfl
  have e2 : String.mk msg.toList = msg := rfl
  rw [e1, e2, watoi64_toString time (by omega) ht1]

/-- Witness of C8: the entry with severity Error, timestamp 1700000000 and the message
"disk-full-error". -/
theorem C8_log_line_round_trip_witness :
    serializeLogEntry '-' ⟨2, 1700000000, "disk-full-error"⟩ = "2-1700000000-disk-full-error" ∧
    Backup.parseLogLine (serializeLogEntry '-' ⟨2, 1700000000, "disk-full-error"⟩)
      = (2, 1700000000, "disk-full-error") :=
  ⟨by decide,
   C8_log_line_round_trip '-' 2 1700000000 "disk-full-error" (by decide) (by decide)
     (by decide)⟩

/-! ## The report of a run -/

theorem outbox_sendLogdataMail (env : Env) (this : Backup) (r_success : Bool)
    (image incremental : Int) (resumed : Bool) (errors warnings infos : Int) (data : String)
    (w : World) :
    (Backup.sendLogdataMail env this r_success image incremental resumed
        errors warnings infos data w).outbox =
      w.outbox ++ Backup.reports env this r_success image incremental resumed
        errors warnings infos data := by
  unfold Backup.sendLogdataMail Backup.reports
  by_cases h0 : env.mail_server.servername = ""
  · simp [h0]
  · cases h1 : env.url_fak
    · simp [h0]
    · simp only [if_neg h0, Bool.not_true, Bool.false_eq_true, if_false]
      exact outbox_foldl_users _ _ _ _ _ _ _ _ _ _ _ _

theorem outbox_loggerLog (c : Int) (m : String) (l : Int) (w : World) :
    (ServerLogger.Log c m l w).outbox = w.outbox := by
  simp [ServerLogger.Log, World.outbox, World.emit, List.filterMap_append]

theorem outbox_loggerReset (c : Int) (w : World) :
    (ServerLogger.reset c w).outbox = w.outbox := by
  simp [ServerLogger.reset, World.outbox, World.emit, List.filterMap_append]

theorem outbox_setServerStatus (s : SStatus) (w : World) :
    (ServerStatus.setServerStatus s w).outbox = w.outbox := by
  simp [ServerStatus.setServerStatus, outbox_emit]

/-- The mails of `saveClientLogdata` are those of its call of `sendLogdataMail`, made with the
counts and the serialized log of the client. -/
theorem outbox_saveClientLogdata (env : Env) (this : Backup) (image incremental : Int)
    (r_success resumed : Bool) (w : World) :
    (Backup.saveClientLogdata env this image incremental r_success resumed w).outbox =
      w.outbox ++ Backup.reports env this r_success image incremental resumed
        (ServerLogger.getLogdata env this.clientid w).2.1
        (ServerLogger.getLogdata env this.clientid w).2.2.1
        (ServerLogger.getLogdata env this.clientid w).2.2.2
        (ServerLogger.getLogdata env this.clientid w).1 := by
  unfold Backup.saveClientLogdata
  simp only [outbox_loggerReset, outbox_sendLogdataMail]
  simp [World.outbox, World.emit, List.filterMap_append]

theorem outbox_callLogResult (env : Env) (this : Backup) (backup_starttime : Int)
    (w : World) : (Backup.callLogResult env this backup_starttime w).outbox = w.outbox := by
  unfold Backup.callLogResult
  simp only
  split
  · cases this.backup_result <;> simp [outbox_emit, outbox_loggerLog]
  · simp [outbox_emit]

/-- The mails sent after the engine has returned `r`: when the run is logged (line 120), the
reports of `sendLogdataMail` called with the success flag `r && !has_early_error` and with the
counts and the serialized log of the client at that moment. -/
theorem newMails_callAfter (env : Env) (this : Backup) (r : Bool) (backup_starttime : Int)
    (w : World) :
    w.newMails (Backup.callAfter env this r backup_starttime w).2 =
      if (this.log_backup || this.log_action = .LogAction_AlwaysLog)
          && this.log_action ≠ .LogAction_NoLogging then
        Backup.reports env { this with backup_result := r } (r && !this.has_early_error)
          (if this.is_file_backup then 0 else 1) (if this.r_incremental then 1 else 0)
          this.r_resumed
          (ServerLogger.getLogdata env this.clientid
            (Backup.callLogResult env { this with backup_result := r } backup_starttime w)).2.1
          (ServerLogger.getLogdata env this.clientid
            (Backup.callLogResult env { this with backup_result := r } backup_starttime w)).2.2.1
          (ServerLogger.getLogdata env this.clientid
            (Backup.callLogResult env { this with backup_result := r } backup_starttime w)).2.2.2
          (ServerLogger.getLogdata env this.clientid
            (Backup.callLogResult env { this with backup_result := r } backup_starttime w)).1
      else [] := by
  unfold World.newMails Backup.callAfter
  simp only [outbox_emit, outbox_setServerStatus, List.append_nil]
  split
  · rw [outbox_saveClientLogdata, outbox_callLogResult, List.drop_left]
  · rw [outbox_callLogResult]
    simp

theorem mem_reports (env : Env) (this : Backup) (r_success : Bool)
    (image incremental : Int) (resumed : Bool) (errors warnings infos : Int) (data : String)
    (m : MailCall)
    (hm : m ∈ Backup.reports env this r_success image incremental resumed
      errors warnings infos data) :
    Backup.reportGate (env.getUserReportSettings m.userid).report_loglevel
        (env.getUserReportSettings m.userid).report_sendonly r_success errors warnings infos
        = true ∧
      m.subj = Backup.mailSubject this r_success image incremental resumed ∧
      m.msg = Backup.mailBody env this image incremental resumed errors warnings infos data := by
  unfold Backup.reports at hm
  split at hm
  · cases hm
  · split at hm
    · cases hm
    · rw [mem_filterMap_reportFor] at hm
      have h := hm.2
      unfold Backup.reportFor at h
      split at h
      · rename_i hc
        have e := Option.some.inj h
        rw [← e]
        exact ⟨hc.2.2, rfl, rfl⟩
      · cases h

/-- C9: when the engine returns `false`, no report mail of the run goes to a user whose
`report_sendonly` is 2 (OnlyOnSuccess), whatever the job (kind, mode, flags), the counts of the
log and the user's threshold. -/
theorem C9_failed_run_no_report_for_only_on_success (env : Env) (doBackup : Engine)
    (this : Backup) (w : World) (u : Int)
    (hfail : (doBackup (Backup.callBefore env this w).1 (Backup.callBefore env this w).2.1).1
      = false)
    (hpol : (env.getUserReportSettings u).report_sendonly = 2) :
    ∀ m ∈ (doBackup (Backup.callBefore env this w).1
        (Backup.callBefore env this w).2.1).2.2.newMails (Backup.call env doBackup this w).2,
      m.userid ≠ u := by
  intro m hm hu
  simp only [Backup.call] at hm
  rw [newMails_callAfter, hfail] at hm
  split at hm
  · have hg := (mem_reports _ _ _ _ _ _ _ _ _ _ m hm).1
    rw [hu, hpol] at hg
    simp [Backup.reportGate] at hg
  · cases hm

theorem exists_report_of_gate (env : Env) (this : Backup) (r_success : Bool)
    (image incremental : Int) (resumed : Bool) (errors warnings infos : Int) (data : String)
    (u : Int) (hmail : env.mail_server.servername ≠ "")
    (hurl : env.url_fak = true) (hu : u ∈ env.mailable_user_ids)
    (hc : Backup.hasLogRight env this u = true ∧ (env.getUserReportSettings u).exists = true ∧
      Backup.reportGate (env.getUserReportSettings u).report_loglevel
        (env.getUserReportSettings u).report_sendonly r_success errors warnings infos = true) :
    ∃ m ∈ Backup.reports env this r_success image incremental resumed
      errors warnings infos data, m.userid = u := by
  unfold Backup.reports
  rw [if_neg hmail, hurl]
  simp only [Bool.not_true, Bool.false_eq_true, if_false]
  refine ⟨⟨u, Tokenize (env.getUserReportSettings u).report_mail ",;",
      Backup.mailSubject this r_success image incremental resumed,
      Backup.mailBody env this image incremental resumed errors warnings infos data⟩, ?_, rfl⟩
  refine List.mem_filterMap.2 ⟨u, hu, ?_⟩
  unfold Backup.reportFor
  rw [if_pos hc]

/-- The failed full image backup of client 3 on `demoEnv` is reported to user 1, who reports
always. -/
theorem demo_failed_run_reports_to_user1 :
    ∃ m ∈ (demoEngine false
        (Backup.callBefore demoEnv
          (demoBackup 3 "alpha" .LogAction_LogIfNotDisabled false false) demoWorld).1
        (Backup.callBefore demoEnv
          (demoBackup 3 "alpha" .LogAction_LogIfNotDisabled false false) demoWorld).2.1
        ).2.2.newMails
        (Backup.call demoEnv (demoEngine false)
          (demoBackup 3 "alpha" .LogAction_LogIfNotDisabled false false) demoWorld).2,
      m.userid = 1 := by
  simp only [Backup.call]
  rw [newMails_callAfter, if_pos (by decide)]
  exact exists_report_of_gate _ _ _ _ _ _ _ _ _ _ 1 (by decide) rfl (by decide)
    ⟨hasLogRight_of_all_all _ _ _ rfl rfl, rfl, by decide⟩

/-- Witness of C9: a failed full image backup of client 3 on `demoEnv`, whose user 2 may see the
logs of client 3 and reports only on success: the run is reported to user 1, not to user 2. -/
theorem C9_failed_run_no_report_for_only_on_success_witness :
    (∀ m ∈ (demoEngine false
        (Backup.callBefore demoEnv
          (demoBackup 3 "alpha" .LogAction_LogIfNotDisabled false false) demoWorld).1
        (Backup.callBefore demoEnv
          (demoBackup 3 "alpha" .LogAction_LogIfNotDisabled false false) demoWorld).2.1
        ).2.2.newMails
        (Backup.call demoEnv (demoEngine false)
          (demoBackup 3 "alpha" .LogAction_LogIfNotDisabled false false) demoWorld).2,
      m.userid ≠ 2) ∧
    ∃ m ∈ (demoEngine false
        (Backup.callBefore demoEnv
          (demoBackup 3 "alpha" .LogAction_LogIfNotDisabled false false) demoWorld).1
        (Backup.callBefore demoEnv
          (demoBackup 3 "alpha" .LogAction_LogIfNotDisabled false false) demoWorld).2.1
        ).2.2.newMails
        (Backup.call demoEnv (demoEngine false)
          (demoBackup 3 "alpha" .LogAction_LogIfNotDisabled false false) demoWorld).2,
      m.userid = 1 :=
  ⟨C9_failed_run_no_report_for_only_on_success demoEnv (demoEngine false)
    (demoBackup 3 "alpha" .LogAction_LogIfNotDisabled false false) demoWorld 2 rfl rfl,
   demo_failed_run_reports_to_user1⟩

/-! ## The counts summary -/

theorem foldl_append_joinAll (f : String → String) (lines : List String) : ∀ init : String,
    lines.foldl (fun msg line => msg ++ f line) init = init ++ joinAll (lines.map f) := by
  induction lines with
  | nil => intro init; simp [joinAll]
  | cons l ls ih =>
    intro init
    rw [List.foldl_cons, ih, List.map_cons, joinAll, String.append_assoc]

/-- The text of the report: the opening with the counts summary, then the rendered lines of the
serialized log. -/
theorem mailBody_eq (env : Env) (this : Backup) (image incremental : Int) (resumed : Bool)
    (errors warnings infos : Int) (data : String) :
    Backup.mailBody env this image incremental resumed errors warnings infos data =
      Backup.mailHead this image incremental resumed errors warnings infos ++
        joinAll ((TokenizeMail data "\n").map (Backup.renderLogLine env)) := by
  unfold Backup.mailBody
  exact foldl_append_joinAll _ _ _

theorem mailHead_eq (this : Backup) (image incremental : Int) (resumed : Bool)
    (errors warnings infos : Int) :
    ∃ opening : String,
      Backup.mailHead this image incremental resumed errors warnings infos =
        opening ++ "\nReport:\n" ++ countsSummary infos warnings errors ++ "\n\n" := by
  refine ⟨(if image > 0 then
      (if incremental > 0 then
        if resumed then "UrBackup just did " ++ "a resumed incremental "
        else "UrBackup just did " ++ "an incremental "
      else
        if resumed then "UrBackup just did " ++ "a resumed full "
        else "UrBackup just did " ++ "a full ") ++ "image "
    else
      (if incremental > 0 then
        if resumed then "UrBackup just did " ++ "a resumed incremental "
        else "UrBackup just did " ++ "an incremental "
      else
        if resumed then "UrBackup just did " ++ "a resumed full "
        else "UrBackup just did " ++ "a full ") ++ "file ")
    ++ ("backup of \"" ++ this.clientname ++ "\".\n"), ?_⟩
  unfold Backup.mailHead countsSummary
  by_cases h1 : infos = 1 <;> by_cases h2 : warnings = 1 <;> by_cases h3 : errors = 1 <;>
    simp only [h1, h2, h3, ne_eq, not_true_eq_false, not_false_eq_true, if_true, if_false,
      String.append_assoc] <;>
    rfl

/-- C10: the text of every report mail of `sendLogdataMail` contains the counts summary
"( <infos> info[s], <warnings> warning[s], <errors> error[s] )", in that order, each noun
singular exactly when its count is 1 (`countsSummary`); it stands between the line "Report:"
and an empty line. -/
theorem C10_body_contains_counts_summary (env : Env) (this : Backup) (r_success : Bool)
    (image incremental : Int) (resumed : Bool) (errors warnings infos : Int) (data : String)
    (w : World) (m : MailCall)
    (hm : m ∈ w.newMails (Backup.sendLogdataMail env this r_success image incremental resumed
      errors warnings infos data w)) :
    ∃ opening lines : String,
      m.msg = opening ++ "\nReport:\n" ++ countsSummary infos warnings errors ++ "\n\n"
        ++ lines := by
  obtain ⟨opening, ho⟩ := mailHead_eq this image incremental resumed errors warnings infos
  refine ⟨opening, joinAll ((TokenizeMail data "\n").map (Backup.renderLogLine env)), ?_⟩
  rw [(newMails_subj_msg env this r_success image incremental resumed errors warnings
    infos data w m hm).2, mailBody_eq, ho]

/-- Witness of C10: the report of a resumed incremental file backup of "alpha" with 2 infos,
1 warning and no error to user 1 of `demoEnv`. -/
theorem C10_body_contains_counts_summary_witness :
    countsSummary 2 1 0 = "( 2 infos, 1 warning, 0 errors )" ∧
    ∃ opening lines : String,
      Backup.mailBody demoEnv (demoBackup 5 "alpha" .LogAction_LogIfNotDisabled true true)
          0 1 true 0 1 2 "" =
        opening ++ "\nReport:\n" ++ countsSummary 2 1 0 ++ "\n\n" ++ lines :=
  ⟨by decide,
   C10_body_contains_counts_summary demoEnv
     (demoBackup 5 "alpha" .LogAction_LogIfNotDisabled true true)
     true 0 1 true 0 1 2 "" demoWorld _ (demo_mail_mem true 0 1 true)⟩

/-! ## Failed sends -/

theorem serverLog_emit (w : World) (e : Event) :
    (w.emit e).serverLog = w.serverLog ++ (match e with
      | .serverLog m l => [(m, l)]
      | _ => []) := by
  cases e <;> simp [World.serverLog, World.emit, List.filterMap_append]

theorem serverLog_sendLogdataMailUser (env : Env) (this : Backup) (r_success : Bool)
    (image incremental : Int) (resumed : Bool) (errors warnings infos : Int) (data : String)
    (userid : Int) (w : World) :
    (Backup.sendLogdataMailUser env this r_success image incremental resumed
        errors warnings infos data userid w).serverLog =
      w.serverLog ++ sendFailures env.sendMail w.outbox.length
        (Backup.reportFor env this r_success image incremental resumed
          errors warnings infos data userid).toList.length := by
  unfold Backup.sendLogdataMailUser Backup.reportFor
  by_cases h1 : Backup.hasLogRight env this userid = true
  · by_cases h2 : (env.getUserReportSettings userid).exists = true
    · by_cases h3 : Backup.reportGate (env.getUserReportSettings userid).report_loglevel
          (env.getUserReportSettings userid).report_sendonly r_success errors warnings infos = true
      · simp only [h1, h2, h3, and_self, if_true]
        cases hb : (env.sendMail w.outbox.length).1 <;>
          simp [sendFailures, hb, Server.Log, serverLog_emit]
      · simp [h1, h2, h3, sendFailures]
    · simp [h1, h2, sendFailures]
  · simp [h1, sendFailures]

theorem sendFailures_add (sendMail : Nat → Bool × String) (a : Nat) : ∀ first b : Nat,
    sendFailures sendMail first (a + b) =
      sendFailures sendMail first a ++ sendFailures sendMail (first + a) b := by
  induction a with
  | zero => intro first b; simp [sendFailures]
  | succ a ih =>
    intro first b
    have e : a + 1 + b = (a + b) + 1 := by omega
    rw [e, sendFailures, sendFailures, ih, List.append_assoc]
    have e' : first + 1 + a = first + (a + 1) := by omega
    rw [e']

theorem serverLog_foldl_users (env : Env) (this : Backup) (r_success : Bool)
    (image incremental : Int) (resumed : Bool) (errors warnings infos : Int) (data : String)
    (users : List Int) : ∀ w : World,
    (users.foldl (fun w userid =>
        Backup.sendLogdataMailUser env this r_success image incremental resumed
          errors warnings infos data userid w) w).serverLog =
      w.serverLog ++ sendFailures env.sendMail w.outbox.length
        (users.filterMap (Backup.reportFor env this r_success image incremental resumed
          errors warnings infos data)).length := by
  induction users with
  | nil => intro w; simp [sendFailures]
  | cons u us ih =>
    intro w
    rw [List.foldl_cons, ih, serverLog_sendLogdataMailUser, outbox_sendLogdataMailUser,
      List.filterMap_cons, List.append_assoc, List.length_append]
    cases Backup.reportFor env this r_success image incremental resumed
      errors warnings infos data u with
    | none => simp [sendFailures]
    | some m =>
      simp only [Option.toList, List.length_singleton, List.length_cons]
      rw [← sendFailures_add]
      congr 2
      simp only [List.length_nil]
      omega

/-- The entries `sendLogdataMail` writes with `Server->Log`: the warnings of its failed
sends. -/
theorem newServerLog_sendLogdataMail (env : Env) (this : Backup) (r_success : Bool)
    (image incremental : Int) (resumed : Bool) (errors warnings infos : Int) (data : String)
    (w : World) :
    w.newServerLog (Backup.sendLogdataMail env this r_success image incremental resumed
        errors warnings infos data w) =
      sendFailures env.sendMail w.outbox.length
        (Backup.reports env this r_success image incremental resumed
          errors warnings infos data).length := by
  unfold World.newServerLog Backup.sendLogdataMail Backup.reports
  by_cases h0 : env.mail_server.servername = ""
  · simp [h0, sendFailures]
  · cases h1 : env.url_fak
    · simp [h0, sendFailures]
    · simp only [if_neg h0, Bool.not_true, Bool.false_eq_true, if_false]
      rw [serverLog_foldl_users, List.drop_left]

theorem newMails_eq_reports (env : Env) (this : Backup) (r_success : Bool)
    (image incremental : Int) (resumed : Bool) (errors warnings infos : Int) (data : String)
    (w : World) :
    w.newMails (Backup.sendLogdataMail env this r_success image incremental resumed
        errors warnings infos data w) =
      Backup.reports env this r_success image incremental resumed
        errors warnings infos data := by
  unfold World.newMails
  rw [outbox_sendLogdataMail, List.drop_left]

/-- The answer of `getUserRights` depends on the right records only. -/
theorem getUserRights_congr (env env' : Env) (h : env.getUserRight = env'.getUserRight)
    (userid : Int) (domain : String) :
    Backup.getUserRights env userid domain = Backup.getUserRights env' userid domain := by
  have hall : Backup.getUserRights env userid "all" = Backup.getUserRights env' userid "all" := by
    rw [getUserRights_all, getUserRights_all, h]
  by_cases hd : domain = "all"
  · rw [hd, hall]
  · rw [getUserRights_of_ne env userid domain hd, getUserRights_of_ne env' userid domain hd,
      hall, h]

theorem hasLogRight_congr (env env' : Env) (h : env.getUserRight = env'.getUserRight)
    (this : Backup) (userid : Int) :
    Backup.hasLogRight env this userid = Backup.hasLogRight env' this userid := by
  unfold Backup.hasLogRight
  rw [getUserRights_congr env env' h]

/-- The reports do not depend on what the mail transport answers. -/
theorem reports_withTransport (env : Env) (sendMail : Nat → Bool × String) (this : Backup)
    (r_success : Bool) (image incremental : Int) (resumed : Bool)
    (errors warnings infos : Int) (data : String) :
    Backup.reports (env.withTransport sendMail) this r_success image incremental resumed
        errors warnings infos data =
      Backup.reports env this r_success image incremental resumed
        errors warnings infos data := by
  have hr : ∀ u, Backup.reportFor (env.withTransport sendMail) this r_success image incremental
      resumed errors warnings infos data u =
      Backup.reportFor env this r_success image incremental resumed
        errors warnings infos data u := by
    intro u
    unfold Backup.reportFor
    rw [hasLogRight_congr (env.withTransport sendMail) env rfl]
    rfl
  unfold Backup.reports
  rw [funext hr]
  rfl

/-- C11: in one call of `sendLogdataMail`, the sends attempted (users, addresses, subject and
text, in order) are the same as with a mail transport that always succeeds, whatever the list of
mailable users and whatever the transport answers; and `Server->Log` gets exactly one warning
"Sending mail failed. <errmsg>" for each send that failed, in the order of the sends. -/
theorem C11_failed_send_keeps_loop_going (env : Env) (this : Backup) (r_success : Bool)
    (image incremental : Int) (resumed : Bool) (errors warnings infos : Int) (data : String)
    (w : World) :
    w.newMails (Backup.sendLogdataMail env this r_success image incremental resumed
        errors warnings infos data w) =
      w.newMails (Backup.sendLogdataMail (env.withTransport fun _ => (true, "")) this r_success
        image incremental resumed errors warnings infos data w) ∧
    w.newServerLog (Backup.sendLogdataMail env this r_success image incremental resumed
        errors warnings infos data w) =
      sendFailures env.sendMail w.outbox.length
        (w.newMails (Backup.sendLogdataMail env this r_success image incremental resumed
          errors warnings infos data w)).length := by
  rw [newMails_eq_reports, newMails_eq_reports, reports_withTransport,
    newServerLog_sendLogdataMail]
  exact ⟨rfl, rfl⟩

/-! ## The calls of a run, in order -/

theorem trace_sendLogdataMailUser (env : Env) (this : Backup) (r_success : Bool)
    (image incremental : Int) (resumed : Bool) (errors warnings infos : Int) (data : String)
    (userid : Int) (w : World) :
    ∃ es : List Event, (∀ e ∈ es, e.isMailEvent = true) ∧
      (Backup.sendLogdataMailUser env this r_success image incremental resumed
        errors warnings infos data userid w).trace = w.trace ++ es := by
  unfold Backup.sendLogdataMailUser
  simp only
  split
  · split
    · split
      · cases (env.sendMail w.outbox.length).1
        · refine ⟨[.sendMail ⟨userid, Tokenize (env.getUserReportSettings userid).report_mail ",;",
              Backup.mailSubject this r_success image incremental resumed,
              Backup.mailBody env this image incremental resumed errors warnings infos data⟩,
            .serverLog ("Sending mail failed. " ++ (env.sendMail w.outbox.length).2)
              LL_WARNING], ?_, ?_⟩
          · intro e he
            simp only [List.mem_cons, List.mem_singleton, List.not_mem_nil, or_false] at he
            rcases he with he | he <;> rw [he] <;> rfl
          · simp [Server.Log, World.emit]
        · refine ⟨[.sendMail ⟨userid, Tokenize (env.getUserReportSettings userid).report_mail ",;",
              Backup.mailSubject this r_success image incremental resumed,
              Backup.mailBody env this image incremental resumed errors warnings infos data⟩],
            ?_, ?_⟩
          · intro e he
            simp only [List.mem_singleton] at he
            rw [he]; rfl
          · simp [World.emit]
      · exact ⟨[], by simp, by simp⟩
    · exact ⟨[], by simp, by simp⟩
  · exact ⟨[], by simp, by simp⟩

theorem trace_foldl_users (env : Env) (this : Backup) (r_success : Bool)
    (image incremental : Int) (resumed : Bool) (errors warnings infos : Int) (data : String)
    (users : List Int) : ∀ w : World,
    ∃ es : List Event, (∀ e ∈ es, e.isMailEvent = true) ∧
      (users.foldl (fun w userid =>
        Backup.sendLogdataMailUser env this r_success image incremental resumed
          errors warnings infos data userid w) w).trace = w.trace ++ es := by
  induction users with
  | nil => intro w; exact ⟨[], by simp, by simp⟩
  | cons u us ih =>
    intro w
    obtain ⟨es1, h1, e1⟩ := trace_sendLogdataMailUser env this r_success image incremental
      resumed errors warnings infos data u w
    obtain ⟨es2, h2, e2⟩ := ih (Backup.sendLogdataMailUser env this r_success image incremental
      resumed errors warnings infos data u w)
    refine ⟨es1 ++ es2, ?_, ?_⟩
    · intro e he
      rcases List.mem_append.1 he with he | he
      · exact h1 e he
      · exact h2 e he
    · rw [List.foldl_cons, e2, e1, List.append_assoc]

/-- The calls of `sendLogdataMail` are sends of the mail transport and entries of
`Server->Log`. -/
theorem trace_sendLogdataMail (env : Env) (this : Backup) (r_success : Bool)
    (image incremental : Int) (resumed : Bool) (errors warnings infos : Int) (data : String)
    (w : World) :
    ∃ es : List Event, (∀ e ∈ es, e.isMailEvent = true) ∧
      (Backup.sendLogdataMail env this r_success image incremental resumed
        errors warnings infos data w).trace = w.trace ++ es := by
  unfold Backup.sendLogdataMail
  split
  · exact ⟨[], by simp, by simp⟩
  · split
    · exact ⟨[], by simp, by simp⟩
    · exact trace_foldl_users _ _ _ _ _ _ _ _ _ _ _ _

/-- The calls of `saveClientLogdata`, in order: the backup-history record, its serialized log,
the calls of `sendLogdataMail`, the reset of the log of the client. -/
theorem trace_saveClientLogdata (env : Env) (this : Backup) (image incremental : Int)
    (r_success resumed : Bool) (w : World) :
    ∃ es : List Event, (∀ e ∈ es, e.isMailEvent = true) ∧
      (Backup.saveClientLogdata env this image incremental r_success resumed w).trace =
        w.trace ++
          ([.saveBackupLog this.clientid
              (ServerLogger.getLogdata env this.clientid w).2.1
              (ServerLogger.getLogdata env this.clientid w).2.2.1
              (ServerLogger.getLogdata env this.clientid w).2.2.2
              (if this.is_file_backup then 0 else 1) (if this.r_incremental then 1 else 0)
              (if this.r_resumed then 1 else 0),
            .saveBackupLogData (w.last_insert_id + 1)
              (ServerLogger.getLogdata env this.clientid w).1]
            ++ es ++ [.loggerReset this.clientid]) := by
  unfold Backup.saveClientLogdata
  simp only
  generalize hw1 : World.emit _ (Event.saveBackupLogData _ _) = w1
  obtain ⟨es, h, e⟩ := trace_sendLogdataMail env this r_success image incremental resumed
    (ServerLogger.getLogdata env this.clientid w).2.1
    (ServerLogger.getLogdata env this.clientid w).2.2.1
    (ServerLogger.getLogdata env this.clientid w).2.2.2
    (ServerLogger.getLogdata env this.clientid w).1 w1
  refine ⟨es, h, ?_⟩
  simp only [ServerLogger.reset, World.emit, e]
  rw [← hw1]
  simp [World.emit]

/-- The calls of lines 103-118, in order. -/
theorem trace_callLogResult (env : Env) (this : Backup) (backup_starttime : Int) (w : World) :
    (Backup.callLogResult env this backup_starttime w).trace =
      w.trace ++ (.stopBackupRunning this.is_file_backup ::
        (if this.has_early_error = false ∧ this.log_action ≠ .LogAction_NoLogging then
          [.loggerLog this.clientid
              ("Time taken for backing up client " ++ this.clientname ++ ": "
                ++ env.PrettyPrintTime (w.time_ms - backup_starttime)) LL_INFO,
            (if this.backup_result = false then
              .loggerLog this.clientid "Backup failed" LL_ERROR
             else .loggerLog this.clientid "Backup succeeded" LL_INFO),
            .updateStats false]
        else [])) := by
  unfold Backup.callLogResult
  cases this.has_early_error <;> cases this.backup_result <;>
    by_cases h : this.log_action = .LogAction_NoLogging <;>
    simp [h, ServerLogger.Log, World.emit]

theorem call_eq (env : Env) (doBackup : Engine) (this : Backup) (w : World) :
    Backup.call env doBackup this w =
      Backup.callAfter env (Backup.engineResult env doBackup this w).2.1
        (Backup.engineResult env doBackup this w).1 (Backup.callBefore env this w).2.2
        (Backup.engineResult env doBackup this w).2.2 :=
  rfl

/-- The calls of `Backup::operator()` after the engine has returned `r`, in order: those of
lines 103-118, those of `saveClientLogdata` when the run is logged (line 120), the publication
of the idle status and the wake-up of the command pipe. -/
theorem newEvents_callAfter (env : Env) (this : Backup) (r : Bool) (backup_starttime : Int)
    (w : World) :
    ∃ S : List Event,
      w.newEvents (Backup.callAfter env this r backup_starttime w).2 =
        (.stopBackupRunning this.is_file_backup ::
          (if this.has_early_error = false ∧ this.log_action ≠ .LogAction_NoLogging then
            [.loggerLog this.clientid
                ("Time taken for backing up client " ++ this.clientname ++ ": "
                  ++ env.PrettyPrintTime (w.time_ms - backup_starttime)) LL_INFO,
              (if r = false then .loggerLog this.clientid "Backup failed" LL_ERROR
               else .loggerLog this.clientid "Backup succeeded" LL_INFO),
              .updateStats false]
          else [])) ++ S ++
        [.setServerStatus { this.status with
            pcdone := -1, hashqueuesize := 0, prepare_hashqueuesize := 0,
            statusaction := .sa_none },
          .pipeWrite "WAKEUP"] ∧
      (this.shouldSaveLog = true →
        ∃ (errors warnings infos logid : Int) (logdata : String) (es : List Event),
          (∀ e ∈ es, e.isMailEvent = true) ∧
          S = .saveBackupLog this.clientid errors warnings infos
                (if this.is_file_backup then 0 else 1) (if this.r_incremental then 1 else 0)
                (if this.r_resumed then 1 else 0) ::
              .saveBackupLogData logid logdata :: (es ++ [.loggerReset this.clientid])) ∧
      (this.shouldSaveLog = false → S = []) := by
  have hL := trace_callLogResult env { this with backup_result := r } backup_starttime w
  by_cases hc : this.shouldSaveLog = true
  · obtain ⟨es, hes, he⟩ := trace_saveClientLogdata env { this with backup_result := r }
      (if this.is_file_backup then 0 else 1) (if this.r_incremental then 1 else 0)
      (r && !this.has_early_error) this.r_resumed
      (Backup.callLogResult env { this with backup_result := r } backup_starttime w)
    refine ⟨.saveBackupLog this.clientid
        (ServerLogger.getLogdata env this.clientid
          (Backup.callLogResult env { this with backup_result := r } backup_starttime w)).2.1
        (ServerLogger.getLogdata env this.clientid
          (Backup.callLogResult env { this with backup_result := r } backup_starttime w)).2.2.1
        (ServerLogger.getLogdata env this.clientid
          (Backup.callLogResult env { this with backup_result := r } backup_starttime w)).2.2.2
        (if this.is_file_backup then 0 else 1) (if this.r_incremental then 1 else 0)
        (if this.r_resumed then 1 else 0) ::
      .saveBackupLogData
        ((Backup.callLogResult env { this with backup_result := r } backup_starttime
          w).last_insert_id + 1)
        (ServerLogger.getLogdata env this.clientid
          (Backup.callLogResult env { this with backup_result := r } backup_starttime w)).1 ::
      (es ++ [.loggerReset this.clientid]), ?_,
      fun _ => ⟨_, _, _, _, _, es, hes, rfl⟩, fun h => absurd hc (by simp [h])⟩
    have hc' : ((this.log_backup || decide (this.log_action = .LogAction_AlwaysLog))
        && decide (this.log_action ≠ .LogAction_NoLogging)) = true := hc
    unfold World.newEvents Backup.callAfter
    simp only [hc', if_true, ServerStatus.setServerStatus, World.emit, he, hL]
    simp
  · have hc0 : this.shouldSaveLog = false := by
      cases h : this.shouldSaveLog
      · rfl
      · exact absurd h hc
    refine ⟨[], ?_, fun h => absurd h hc, fun _ => rfl⟩
    have hc' : ((this.log_backup || decide (this.log_action = .LogAction_AlwaysLog))
        && decide (this.log_action ≠ .LogAction_NoLogging)) = false := hc0
    unfold World.newEvents Backup.callAfter
    simp only [hc', Bool.false_eq_true, if_false, ServerStatus.setServerStatus, World.emit, hL]
    simp

theorem isLogOrStats_of_isMailEvent (e : Event) (h : e.isMailEvent = true) :
    e.isLogOrStats = false ∧ e.isSaveBackupLog = false := by
  cases e <;> simp_all [Event.isMailEvent, Event.isLogOrStats, Event.isSaveBackupLog]

theorem filter_eq_nil_of_forall {α : Type} (p : α → Bool) (l : List α)
    (h : ∀ x ∈ l, p x = false) : l.filter p = [] := by
  induction l with
  | nil => rfl
  | cons x xs ih =>
    rw [List.filter_cons, h x (List.mem_cons_self _ _)]
    simp only [Bool.false_eq_true, if_false]
    exact ih (fun y hy => h y (List.mem_cons_of_mem _ hy))

/-- The entries of the log of the client and the statistics refreshes among the calls of
`Backup::operator()` after the engine has returned `r`. -/
theorem filter_isLogOrStats_callAfter (env : Env) (this : Backup) (r : Bool)
    (backup_starttime : Int) (w : World) :
    (w.newEvents (Backup.callAfter env this r backup_starttime w).2).filter Event.isLogOrStats =
      if this.has_early_error = false ∧ this.log_action ≠ .LogAction_NoLogging then
        [.loggerLog this.clientid
            ("Time taken for backing up client " ++ this.clientname ++ ": "
              ++ env.PrettyPrintTime (w.time_ms - backup_starttime)) LL_INFO,
          (if r = false then .loggerLog this.clientid "Backup failed" LL_ERROR
           else .loggerLog this.clientid "Backup succeeded" LL_INFO),
          .updateStats false]
      else [] := by
  obtain ⟨S, hS, h1, h0⟩ := newEvents_callAfter env this r backup_starttime w
  have hSf : S.filter Event.isLogOrStats = [] := by
    cases hc : this.shouldSaveLog
    · rw [h0 hc]; rfl
    · obtain ⟨e1, e2, e3, lid, ld, es, hes, hSeq⟩ := h1 hc
      rw [hSeq]
      apply filter_eq_nil_of_forall
      intro e he
      simp only [List.mem_cons, List.mem_append, List.mem_singleton, List.not_mem_nil,
        or_false] at he
      rcases he with he | he | he | he
      · rw [he]; rfl
      · rw [he]; rfl
      · exact (isLogOrStats_of_isMailEvent e (hes e he)).1
      · rw [he]; rfl
  rw [hS, List.filter_append, List.filter_append, hSf]
  by_cases hc : this.has_early_error = false ∧ this.log_action ≠ .LogAction_NoLogging
  · rw [if_pos hc]
    cases r <;> simp [List.filter, Event.isLogOrStats]
  · rw [if_neg hc]
    simp [List.filter, Event.isLogOrStats]

/-- An error-level entry is appended to the log of the client after the engine has returned
exactly when the engine returned `false`, no early error is set and logging is not disabled. -/
theorem errorLogged_iff (env : Env) (this : Backup) (r : Bool) (backup_starttime : Int)
    (w : World) :
    (∃ msg : String, Event.loggerLog this.clientid msg LL_ERROR ∈
        w.newEvents (Backup.callAfter env this r backup_starttime w).2) ↔
      (r = false ∧ this.has_early_error = false ∧
        this.log_action ≠ .LogAction_NoLogging) := by
  have hf := filter_isLogOrStats_callAfter env this r backup_starttime w
  have hmem : ∀ msg : String,
      Event.loggerLog this.clientid msg LL_ERROR ∈
        w.newEvents (Backup.callAfter env this r backup_starttime w).2 ↔
      Event.loggerLog this.clientid msg LL_ERROR ∈
        (w.newEvents (Backup.callAfter env this r backup_starttime w).2).filter
          Event.isLogOrStats := by
    intro msg
    rw [List.mem_filter]
    exact ⟨fun h => ⟨h, rfl⟩, fun h => h.1⟩
  simp only [hmem, hf]
  by_cases hc : this.has_early_error = false ∧ this.log_action ≠ .LogAction_NoLogging
  · rw [if_pos hc]
    cases r
    · simp [hc, LL_INFO, LL_ERROR]
    · simp [LL_INFO, LL_ERROR]
  · rw [if_neg hc]
    simp only [List.not_mem_nil, exists_false, false_iff]
    exact fun h => hc h.2

/-- The backup-history record and the mails among the calls of `Backup::operator()` after the
engine has returned: one record with its serialized log when the run is logged (line 120),
otherwise neither a record nor a mail. -/
theorem saveEvents_callAfter (env : Env) (this : Backup) (r : Bool)
    (backup_starttime : Int) (w : World) :
    (this.shouldSaveLog = true →
      ∃ (errors warnings infos logid : Int) (logdata : String),
        (w.newEvents (Backup.callAfter env this r backup_starttime w).2).filter
            Event.isSaveBackupLog =
          [.saveBackupLog this.clientid errors warnings infos
              (if this.is_file_backup then 0 else 1) (if this.r_incremental then 1 else 0)
              (if this.r_resumed then 1 else 0),
            .saveBackupLogData logid logdata]) ∧
    (this.shouldSaveLog = false →
      ∀ e ∈ w.newEvents (Backup.callAfter env this r backup_starttime w).2,
        e.isSaveBackupLog = false ∧ e.isSendMail = false) := by
  obtain ⟨S, hS, h1, h0⟩ := newEvents_callAfter env this r backup_starttime w
  constructor
  · intro hc
    obtain ⟨e1, e2, e3, lid, ld, es, hes, hSeq⟩ := h1 hc
    refine ⟨e1, e2, e3, lid, ld, ?_⟩
    have hes' : es.filter Event.isSaveBackupLog = [] :=
      filter_eq_nil_of_forall _ _ (fun e he => (isLogOrStats_of_isMailEvent e (hes e he)).2)
    rw [hS, hSeq]
    simp only [List.filter_append, List.filter_cons, hes']
    by_cases hl : this.has_early_error = false ∧ this.log_action ≠ .LogAction_NoLogging
    · rw [if_pos hl]
      cases r <;> simp [List.filter, Event.isSaveBackupLog]
    · rw [if_neg hl]
      simp [List.filter, Event.isSaveBackupLog]
  · intro hc e he
    rw [hS, h0 hc] at he
    by_cases hl : this.has_early_error = false ∧ this.log_action ≠ .LogAction_NoLogging
    · rw [if_pos hl] at he
      simp only [List.append_nil, List.cons_append, List.nil_append, List.mem_cons,
        List.not_mem_nil, or_false] at he
      rcases he with he | he | he | he | he | he
      · rw [he]; exact ⟨rfl, rfl⟩
      · rw [he]; exact ⟨rfl, rfl⟩
      · rw [he]; cases r <;> exact ⟨rfl, rfl⟩
      · rw [he]; exact ⟨rfl, rfl⟩
      · rw [he]; exact ⟨rfl, rfl⟩
      · rw [he]; exact ⟨rfl, rfl⟩
    · rw [if_neg hl] at he
      simp only [List.append_nil, List.cons_append, List.nil_append, List.mem_cons,
        List.not_mem_nil, or_false] at he
      rcases he with he | he | he
      · rw [he]; exact ⟨rfl, rfl⟩
      · rw [he]; exact ⟨rfl, rfl⟩
      · rw [he]; exact ⟨rfl, rfl⟩

theorem shouldSaveLog_iff (this : Backup) :
    this.shouldSaveLog = true ↔
      ((this.log_backup = true ∨ this.log_action = .LogAction_AlwaysLog) ∧
        this.log_action ≠ .LogAction_NoLogging) := by
  unfold Backup.shouldSaveLog
  simp

/-! ## Result, log and report of a run -/

/-- C12, as stated, fails: with logging disabled (`LogAction_NoLogging`), and likewise with
`has_early_error` set, an engine that returns `false` leaves `backup_result = false`, but
`Backup::operator()` appends no error-level entry to the log of the client. -/
theorem C12_error_entry_counterexample :
    ((Backup.engineResult demoEnv (silentEngine false)
        (demoBackup 5 "alpha" .LogAction_NoLogging true false) demoWorld).1 = false ∧
      (Backup.call demoEnv (silentEngine false)
        (demoBackup 5 "alpha" .LogAction_NoLogging true false) demoWorld).1.backup_result
        = false ∧
      ¬ ∃ msg : String, Event.loggerLog 5 msg LL_ERROR ∈
        (Backup.engineResult demoEnv (silentEngine false)
          (demoBackup 5 "alpha" .LogAction_NoLogging true false) demoWorld).2.2.newEvents
        (Backup.call demoEnv (silentEngine false)
          (demoBackup 5 "alpha" .LogAction_NoLogging true false) demoWorld).2) ∧
    ((Backup.engineResult demoEnv (silentEngine false)
        { demoBackup 5 "alpha" .LogAction_AlwaysLog true false with has_early_error := true }
        demoWorld).1 = false ∧
      ¬ ∃ msg : String, Event.loggerLog 5 msg LL_ERROR ∈
        (Backup.engineResult demoEnv (silentEngine false)
          { demoBackup 5 "alpha" .LogAction_AlwaysLog true false with has_early_error := true }
          demoWorld).2.2.newEvents
        (Backup.call demoEnv (silentEngine false)
          { demoBackup 5 "alpha" .LogAction_AlwaysLog true false with has_early_error := true }
          demoWorld).2) := by
  refine ⟨⟨rfl, rfl, fun h => ?_⟩, ⟨rfl, fun h => ?_⟩⟩
  · exact ((errorLogged_iff demoEnv _ _ _ _).1 h).2.2 rfl
  · exact absurd ((errorLogged_iff demoEnv _ _ _ _).1 h).2.1 (by decide)

/-- C12, amended: after the run `backup_result` equals what the engine returned (so it is
`false` whenever the engine returned `false`); and `Backup::operator()` appends an error-level
entry to the log of the client after the engine call if and only if the engine returned `false`,
`has_early_error` is not set and `log_action` is not `LogAction_NoLogging`. -/
theorem C12_result_and_error_entry (env : Env) (doBackup : Engine) (this : Backup)
    (w : World) :
    (Backup.call env doBackup this w).1.backup_result =
        (Backup.engineResult env doBackup this w).1 ∧
    ((∃ msg : String,
        Event.loggerLog (Backup.engineResult env doBackup this w).2.1.clientid msg LL_ERROR ∈
          (Backup.engineResult env doBackup this w).2.2.newEvents
            (Backup.call env doBackup this w).2) ↔
      ((Backup.engineResult env doBackup this w).1 = false ∧
        (Backup.engineResult env doBackup this w).2.1.has_early_error = false ∧
        (Backup.engineResult env doBackup this w).2.1.log_action ≠ .LogAction_NoLogging)) := by
  rw [call_eq]
  exact ⟨rfl, errorLogged_iff env _ _ _ _⟩

theorem outbox_eq_filterMap_toMail (w : World) : w.outbox = w.trace.filterMap Event.toMail := by
  unfold World.outbox
  congr 1

/-- The calls of `sendLogdataMail`: sends of the mail transport and entries of `Server->Log`,
the sends being the reports of the call, in order. -/
theorem mailEvents_sendLogdataMail (env : Env) (this : Backup) (r_success : Bool)
    (image incremental : Int) (resumed : Bool) (errors warnings infos : Int) (data : String)
    (w : World) :
    ∃ es : List Event, (∀ e ∈ es, e.isMailEvent = true) ∧
      es.filterMap Event.toMail = Backup.reports env this r_success image incremental resumed
        errors warnings infos data ∧
      (Backup.sendLogdataMail env this r_success image incremental resumed
        errors warnings infos data w).trace = w.trace ++ es := by
  obtain ⟨es, hes, he⟩ := trace_sendLogdataMail env this r_success image incremental resumed
    errors warnings infos data w
  refine ⟨es, hes, ?_, he⟩
  have ho := outbox_sendLogdataMail env this r_success image incremental resumed
    errors warnings infos data w
  rw [outbox_eq_filterMap_toMail, outbox_eq_filterMap_toMail, he, List.filterMap_append] at ho
  exact List.append_cancel_left ho

/-- The calls of `saveClientLogdata`, in order and with their arguments: the backup-history
record with the counts of `getLogdata`, the serialized log under the new record id, the calls of
`sendLogdataMail` (whose sends are the reports for these counts and this log), the reset of the
log of the client. -/
theorem trace_saveClientLogdata_exact (env : Env) (this : Backup) (image incremental : Int)
    (r_success resumed : Bool) (w : World) :
    ∃ es : List Event, (∀ e ∈ es, e.isMailEvent = true) ∧
      es.filterMap Event.toMail = Backup.reports env this r_success image incremental resumed
        (ServerLogger.getLogdata env this.clientid w).2.1
        (ServerLogger.getLogdata env this.clientid w).2.2.1
        (ServerLogger.getLogdata env this.clientid w).2.2.2
        (ServerLogger.getLogdata env this.clientid w).1 ∧
      (Backup.saveClientLogdata env this image incremental r_success resumed w).trace =
        w.trace ++
          (.saveBackupLog this.clientid
              (ServerLogger.getLogdata env this.clientid w).2.1
              (ServerLogger.getLogdata env this.clientid w).2.2.1
              (ServerLogger.getLogdata env this.clientid w).2.2.2
              (if this.is_file_backup then 0 else 1) (if this.r_incremental then 1 else 0)
              (if this.r_resumed then 1 else 0) ::
            .saveBackupLogData (w.last_insert_id + 1)
              (ServerLogger.getLogdata env this.clientid w).1 ::
            (es ++ [.loggerReset this.clientid])) := by
  unfold Backup.saveClientLogdata
  simp only
  generalize hw1 : World.emit _ (Event.saveBackupLogData _ _) = w1
  obtain ⟨es, h, hr, e⟩ := mailEvents_sendLogdataMail env this r_success image incremental
    resumed
    (ServerLogger.getLogdata env this.clientid w).2.1
    (ServerLogger.getLogdata env this.clientid w).2.2.1
    (ServerLogger.getLogdata env this.clientid w).2.2.2
    (ServerLogger.getLogdata env this.clientid w).1 w1
  refine ⟨es, h, hr, ?_⟩
  simp only [ServerLogger.reset, World.emit, e]
  rw [← hw1]
  simp [World.emit]

/-- The calls of `Backup::operator()` from line 120 on, after the engine has returned `r`: when
the run is logged, those of `saveClientLogdata` called with the success flag
`r && !has_early_error`; then the publication of the idle status and the wake-up. -/
theorem newEvents_from_report (env : Env) (this : Backup) (r : Bool) (backup_starttime : Int)
    (w : World) :
    (this.shouldSaveLog = true →
      ∃ es : List Event, (∀ e ∈ es, e.isMailEvent = true) ∧
        es.filterMap Event.toMail =
          Backup.reports env this (r && !this.has_early_error)
            (if this.is_file_backup then 0 else 1) (if this.r_incremental then 1 else 0)
            this.r_resumed
            (ServerLogger.getLogdata env this.clientid
              (Backup.callLogResult env { this with backup_result := r } backup_starttime w)).2.1
            (ServerLogger.getLogdata env this.clientid
              (Backup.callLogResult env { this with backup_result := r } backup_starttime
                w)).2.2.1
            (ServerLogger.getLogdata env this.clientid
              (Backup.callLogResult env { this with backup_result := r } backup_starttime
                w)).2.2.2
            (ServerLogger.getLogdata env this.clientid
              (Backup.callLogResult env { this with backup_result := r } backup_starttime w)).1 ∧
        (Backup.callLogResult env { this with backup_result := r } backup_starttime w).newEvents
            (Backup.callAfter env this r backup_starttime w).2 =
          .saveBackupLog this.clientid
              (ServerLogger.getLogdata env this.clientid
                (Backup.callLogResult env { this with backup_result := r } backup_starttime
                  w)).2.1
              (ServerLogger.getLogdata env this.clientid
                (Backup.callLogResult env { this with backup_result := r } backup_starttime
                  w)).2.2.1
              (ServerLogger.getLogdata env this.clientid
                (Backup.callLogResult env { this with backup_result := r } backup_starttime
                  w)).2.2.2
              (if this.is_file_backup then 0 else 1) (if this.r_incremental then 1 else 0)
              (if this.r_resumed then 1 else 0) ::
            .saveBackupLogData
              ((Backup.callLogResult env { this with backup_result := r } backup_starttime
                w).last_insert_id + 1)
              (ServerLogger.getLogdata env this.clientid
                (Backup.callLogResult env { this with backup_result := r } backup_starttime
                  w)).1 ::
            (es ++ [.loggerReset this.clientid,
              .setServerStatus { this.status with
                pcdone := -1, hashqueuesize := 0, prepare_hashqueuesize := 0,
                statusaction := .sa_none },
              .pipeWrite "WAKEUP"])) ∧
    (this.shouldSaveLog = false →
      (Backup.callLogResult env { this with backup_result := r } backup_starttime w).newEvents
          (Backup.callAfter env this r backup_starttime w).2 =
        [.setServerStatus { this.status with
            pcdone := -1, hashqueuesize := 0, prepare_hashqueuesize := 0,
            statusaction := .sa_none },
          .pipeWrite "WAKEUP"]) := by
  constructor
  · intro hc
    obtain ⟨es, hes, hr, he⟩ := trace_saveClientLogdata_exact env { this with backup_result := r }
      (if this.is_file_backup then 0 else 1) (if this.r_incremental then 1 else 0)
      (r && !this.has_early_error) this.r_resumed
      (Backup.callLogResult env { this with backup_result := r } backup_starttime w)
    refine ⟨es, hes, hr, ?_⟩
    have hc' : ((this.log_backup || decide (this.log_action = .LogAction_AlwaysLog))
        && decide (this.log_action ≠ .LogAction_NoLogging)) = true := hc
    unfold World.newEvents Backup.callAfter
    simp only [hc', if_true, ServerStatus.setServerStatus, World.emit, he]
    simp
  · intro hc
    have hc' : ((this.log_backup || decide (this.log_action = .LogAction_AlwaysLog))
        && decide (this.log_action ≠ .LogAction_NoLogging)) = false := hc
    unfold World.newEvents Backup.callAfter
    simp only [hc', Bool.false_eq_true, if_false, ServerStatus.setServerStatus, World.emit]
    simp

/-- C14: after the engine has returned, `Backup::operator()` persists the log and dispatches the
report (the work of `saveClientLogdata`) if and only if (`log_backup` or `log_action ==
LogAction_AlwaysLog`) and `log_action != LogAction_NoLogging`, the members being read as the
engine leaves them.  When the condition holds, its calls from line 120 on are exactly: one
`saveBackupLog` with the counts of the log of the client and the kind, mode and resumed flag of
the job, `saveBackupLogData` with the new record id and the serialized log, the calls of
`sendLogdataMail` (mail sends and `Server->Log` entries only, the sends being the reports for
the success flag `backup_result && !has_early_error`, these counts and this log), the reset of
the log of the client, the publication of the idle status and the wake-up; and the mails sent
after the engine call are these reports.  In every other case the calls from line 120 on are the
publication of the idle status and the wake-up only: no record is written and no mail is
sent. -/
theorem C14_log_saved_iff_policy (env : Env) (doBackup : Engine) (this : Backup) (w : World) :
    ((∃ e ∈ (Backup.engineResult env doBackup this w).2.2.newEvents
          (Backup.call env doBackup this w).2, e.isSaveBackupLog = true) ↔
      (((Backup.engineResult env doBackup this w).2.1.log_backup = true ∨
          (Backup.engineResult env doBackup this w).2.1.log_action = .LogAction_AlwaysLog) ∧
        (Backup.engineResult env doBackup this w).2.1.log_action ≠ .LogAction_NoLogging)) ∧
    ((Backup.engineResult env doBackup this w).2.1.shouldSaveLog = true →
      ∃ (errors warnings infos logid : Int) (logdata : String),
        ((Backup.engineResult env doBackup this w).2.2.newEvents
            (Backup.call env doBackup this w).2).filter Event.isSaveBackupLog =
          [.saveBackupLog (Backup.engineResult env doBackup this w).2.1.clientid
              errors warnings infos
              (if (Backup.engineResult env doBackup this w).2.1.is_file_backup then 0 else 1)
              (if (Backup.engineResult env doBackup this w).2.1.r_incremental then 1 else 0)
              (if (Backup.engineResult env doBackup this w).2.1.r_resumed then 1 else 0),
            .saveBackupLogData logid logdata]) ∧
    ((Backup.engineResult env doBackup this w).2.1.shouldSaveLog = false →
      ∀ e ∈ (Backup.engineResult env doBackup this w).2.2.newEvents
          (Backup.call env doBackup this w).2,
        e.isSaveBackupLog = false ∧ e.isSendMail = false) ∧
    ((Backup.engineResult env doBackup this w).2.1.shouldSaveLog = true →
      (∃ es : List Event, (∀ e ∈ es, e.isMailEvent = true) ∧
        es.filterMap Event.toMail =
          Backup.reports env (Backup.engineResult env doBackup this w).2.1
            ((Backup.engineResult env doBackup this w).1 &&
              !(Backup.engineResult env doBackup this w).2.1.has_early_error)
            (if (Backup.engineResult env doBackup this w).2.1.is_file_backup then 0 else 1)
            (if (Backup.engineResult env doBackup this w).2.1.r_incremental then 1 else 0)
            (Backup.engineResult env doBackup this w).2.1.r_resumed
            (Backup.logdataAtReport env doBackup this w).2.1
            (Backup.logdataAtReport env doBackup this w).2.2.1
            (Backup.logdataAtReport env doBackup this w).2.2.2
            (Backup.logdataAtReport env doBackup this w).1 ∧
        (Backup.stateAtReport env doBackup this w).newEvents
            (Backup.call env doBackup this w).2 =
          .saveBackupLog (Backup.engineResult env doBackup this w).2.1.clientid
              (Backup.logdataAtReport env doBackup this w).2.1
              (Backup.logdataAtReport env doBackup this w).2.2.1
              (Backup.logdataAtReport env doBackup this w).2.2.2
              (if (Backup.engineResult env doBackup this w).2.1.is_file_backup then 0 else 1)
              (if (Backup.engineResult env doBackup this w).2.1.r_incremental then 1 else 0)
              (if (Backup.engineResult env doBackup this w).2.1.r_resumed then 1 else 0) ::
            .saveBackupLogData ((Backup.stateAtReport env doBackup this w).last_insert_id + 1)
              (Backup.logdataAtReport env doBackup this w).1 ::
            (es ++ [.loggerReset (Backup.engineResult env doBackup this w).2.1.clientid,
              .setServerStatus { (Backup.engineResult env doBackup this w).2.1.status with
                pcdone := -1, hashqueuesize := 0, prepare_hashqueuesize := 0,
                statusaction := .sa_none },
              .pipeWrite "WAKEUP"])) ∧
      (Backup.engineResult env doBackup this w).2.2.newMails
          (Backup.call env doBackup this w).2 =
        Backup.reports env (Backup.engineResult env doBackup this w).2.1
          ((Backup.engineResult env doBackup this w).1 &&
            !(Backup.engineResult env doBackup this w).2.1.has_early_error)
          (if (Backup.engineResult env doBackup this w).2.1.is_file_backup then 0 else 1)
          (if (Backup.engineResult env doBackup this w).2.1.r_incremental then 1 else 0)
          (Backup.engineResult env doBackup this w).2.1.r_resumed
          (Backup.logdataAtReport env doBackup this w).2.1
          (Backup.logdataAtReport env doBackup this w).2.2.1
          (Backup.logdataAtReport env doBackup this w).2.2.2
          (Backup.logdataAtReport env doBackup this w).1) ∧
    ((Backup.engineResult env doBackup this w).2.1.shouldSaveLog = false →
      (Backup.stateAtReport env doBackup this w).newEvents
          (Backup.call env doBackup this w).2 =
        [.setServerStatus { (Backup.engineResult env doBackup this w).2.1.status with
            pcdone := -1, hashqueuesize := 0, prepare_hashqueuesize := 0,
            statusaction := .sa_none },
          .pipeWrite "WAKEUP"] ∧
      (Backup.engineResult env doBackup this w).2.2.newMails
          (Backup.call env doBackup this w).2 = []) := by
  rw [call_eq]
  have h := saveEvents_callAfter env (Backup.engineResult env doBackup this w).2.1
    (Backup.engineResult env doBackup this w).1 (Backup.callBefore env this w).2.2
    (Backup.engineResult env doBackup this w).2.2
  have hx := newEvents_from_report env (Backup.engineResult env doBackup this w).2.1
    (Backup.engineResult env doBackup this w).1 (Backup.callBefore env this w).2.2
    (Backup.engineResult env doBackup this w).2.2
  have hmails := newMails_callAfter env (Backup.engineResult env doBackup this w).2.1
    (Backup.engineResult env doBackup this w).1 (Backup.callBefore env this w).2.2
    (Backup.engineResult env doBackup this w).2.2
  refine ⟨?_, h.1, h.2, ?_, ?_⟩
  · rw [← shouldSaveLog_iff]
    constructor
    · rintro ⟨e, he, hs⟩
      cases hc : (Backup.engineResult env doBackup this w).2.1.shouldSaveLog
      · rw [(h.2 hc e he).1] at hs
        cases hs
      · rfl
    · intro hc
      obtain ⟨e1, e2, e3, lid, ld, hf⟩ := h.1 hc
      refine ⟨.saveBackupLogData lid ld, ?_, rfl⟩
      have : Event.saveBackupLogData lid ld ∈
          ((Backup.engineResult env doBackup this w).2.2.newEvents
            (Backup.callAfter env (Backup.engineResult env doBackup this w).2.1
              (Backup.engineResult env doBackup this w).1 (Backup.callBefore env this w).2.2
              (Backup.engineResult env doBackup this w).2.2).2).filter Event.isSaveBackupLog := by
        rw [hf]; simp
      exact (List.mem_filter.1 this).1
  · intro hc
    refine ⟨hx.1 hc, ?_⟩
    have hc' : (((Backup.engineResult env doBackup this w).2.1.log_backup ||
        decide ((Backup.engineResult env doBackup this w).2.1.log_action
          = .LogAction_AlwaysLog))
        && decide ((Backup.engineResult env doBackup this w).2.1.log_action
          ≠ .LogAction_NoLogging)) = true := hc
    rw [hmails, if_pos hc']
    rfl
  · intro hc
    refine ⟨hx.2 hc, ?_⟩
    have hc' : (((Backup.engineResult env doBackup this w).2.1.log_backup ||
        decide ((Backup.engineResult env doBackup this w).2.1.log_action
          = .LogAction_AlwaysLog))
        && decide ((Backup.engineResult env doBackup this w).2.1.log_action
          ≠ .LogAction_NoLogging)) = false := hc
    rw [hmails, hc']
    rfl

/-- Witness of C14: the failed full image backup of client 3 on `demoEnv` is logged: the record
carries 2 errors, 1 warning and 2 infos, the mails sent are the reports for these counts, and
user 1 gets one. -/
theorem C14_log_saved_iff_policy_witness :
    (Backup.engineResult demoEnv (demoEngine false)
      (demoBackup 3 "alpha" .LogAction_LogIfNotDisabled false false)
      demoWorld).2.1.shouldSaveLog = true ∧
    Backup.logdataAtReport demoEnv (demoEngine false)
        (demoBackup 3 "alpha" .LogAction_LogIfNotDisabled false false) demoWorld =
      ("0-1700000000-Starting backup\n1-1700000000-Slow link\n2-1700000000-disk-full-error\n0-1700000005-Time taken for backing up client alpha: 5000ms\n2-1700000005-Backup failed\n",
        2, 1, 2) ∧
    (Backup.engineResult demoEnv (demoEngine false)
        (demoBackup 3 "alpha" .LogAction_LogIfNotDisabled false false) demoWorld).2.2.newMails
        (Backup.call demoEnv (demoEngine false)
          (demoBackup 3 "alpha" .LogAction_LogIfNotDisabled false false) demoWorld).2 =
      Backup.reports demoEnv
        (Backup.engineResult demoEnv (demoEngine false)
          (demoBackup 3 "alpha" .LogAction_LogIfNotDisabled false false) demoWorld).2.1
        false 1 0 false 2 1 2
        (Backup.logdataAtReport demoEnv (demoEngine false)
          (demoBackup 3 "alpha" .LogAction_LogIfNotDisabled false false) demoWorld).1 ∧
    ∃ m ∈ (Backup.engineResult demoEnv (demoEngine false)
        (demoBackup 3 "alpha" .LogAction_LogIfNotDisabled false false) demoWorld).2.2.newMails
        (Backup.call demoEnv (demoEngine false)
          (demoBackup 3 "alpha" .LogAction_LogIfNotDisabled false false) demoWorld).2,
      m.userid = 1 :=
  ⟨rfl, rfl,
   ((C14_log_saved_iff_policy demoEnv (demoEngine false)
      (demoBackup 3 "alpha" .LogAction_LogIfNotDisabled false false) demoWorld).2.2.2.1 rfl).2,
   demo_failed_run_reports_to_user1⟩

/-- C15: among the calls of `Backup::operator()` after the engine call, the entries appended to
the log of the client and the statistics refreshes are: none when `has_early_error` is set (for
every engine result and logging policy) or logging is disabled; otherwise exactly the info
entry with the elapsed time, then the info entry "Backup succeeded" or the error entry
"Backup failed", then one `updateStats(false)`. -/
theorem C15_early_error_suppresses_result_log (env : Env) (doBackup : Engine) (this : Backup)
    (w : World) :
    ((Backup.engineResult env doBackup this w).2.2.newEvents
        (Backup.call env doBackup this w).2).filter Event.isLogOrStats =
      if (Backup.engineResult env doBackup this w).2.1.has_early_error = false ∧
          (Backup.engineResult env doBackup this w).2.1.log_action ≠ .LogAction_NoLogging then
        [.loggerLog (Backup.engineResult env doBackup this w).2.1.clientid
            ("Time taken for backing up client "
              ++ (Backup.engineResult env doBackup this w).2.1.clientname ++ ": "
              ++ env.PrettyPrintTime ((Backup.engineResult env doBackup this w).2.2.time_ms
                  - (Backup.callBefore env this w).2.2)) LL_INFO,
          (if (Backup.engineResult env doBackup this w).1 = false then
            .loggerLog (Backup.engineResult env doBackup this w).2.1.clientid
              "Backup failed" LL_ERROR
           else
            .loggerLog (Backup.engineResult env doBackup this w).2.1.clientid
              "Backup succeeded" LL_INFO),
          .updateStats false]
      else [] := by
  rw [call_eq]
  exact filter_isLogOrStats_callAfter env _ _ _ _

/-- C16: the calls of `Backup::operator()` before the engine call are, in order: the reset of
the log of the client (unless logging is disabled), the publication of the initial status, the
clearing of the stop-requested flag of the client, the error entry of a failed directory
preparation (if it failed), the start notification; and in the shared state handed to the
engine the stop-requested flag of the client is `false`, whatever it was before. -/
theorem C16_status_then_stop_flag_before_engine (env : Env) (this : Backup) (w : World) :
    w.newEvents (Backup.callBefore env this w).2.1 =
      (if this.log_action ≠ .LogAction_NoLogging then [.loggerReset this.clientid] else []) ++
      [.setServerStatus (Backup.initialStatus this), .stopBackup this.clientname false] ++
      (if (Backup.createDirectoryForClient env this w).1 = false then
        [.serverLog ("Could not create or read directory for client \"" ++ this.clientname
          ++ "\"") LL_ERROR]
       else []) ++
      [.startBackupRunning this.is_file_backup] ∧
    (Backup.callBefore env this w).2.1.stop_backup this.clientname = false := by
  unfold World.newEvents Backup.callBefore Backup.createDirectoryForClient
  by_cases hl : this.log_action = .LogAction_NoLogging <;>
    cases hd : (!env.os_create_dir (env.os_file_prefix
        (env.backupfolder ++ env.os_file_sep ++ this.clientname)) &&
      !env.os_directory_exists (env.os_file_prefix
        (env.backupfolder ++ env.os_file_sep ++ this.clientname))) <;>
    simp [hl, hd, ServerLogger.reset, ServerStatus.setServerStatus, ServerStatus.stopBackup,
      Server.Log, World.emit, Backup.initialStatus]

/-! ## Separators of the list of client ids -/

/-- The access check for a user without an "all" override whose "logs" right is "3;7": the
value is one token, which reads as the number 3. -/
theorem hasLogRight_semicolon (env : Env) (this : Backup) (userid : Int)
    (hall : Backup.getUserRights env userid "all" ≠ "all")
    (hlogs : env.getUserRight userid "logs" = ⟨true, "3;7"⟩) :
    Backup.hasLogRight env this userid = decide (this.clientid = 3) := by
  rw [hasLogRight_of_logs env this userid hall (by rw [hlogs]) (by rw [hlogs]; decide), hlogs]
  have ht : Tokenize "3;7" "," = ["3;7"] := by decide
  have hw : watoi "3;7" = 3 := by decide
  simp only [ht, List.foldl_cons, List.foldl_nil, hw]
  by_cases h : this.clientid = 3
  · simp [h]
  · have h' : ¬ (3 = this.clientid) := fun e => h e.symm
    simp [h, h']

theorem getUserRights_all_ne_of_no_override (env : Env) (userid : Int)
    (hall : ¬ ((env.getUserRight userid "all").exists = true ∧
      (env.getUserRight userid "all").value = "all")) :
    Backup.getUserRights env userid "all" ≠ "all" := by
  rw [getUserRights_all]
  by_cases h : (env.getUserRight userid "all").exists = true
  · rw [if_pos h]; exact fun e => hall ⟨h, e⟩
  · rw [if_neg h]; decide

/-- C13, as stated, fails: user 2 of `demoEnvSemicolon` has no "all" override and the "logs"
right "3;7", and the access check of `sendLogdataMail` does not authorize client 7. -/
theorem C13_semicolon_counterexample :
    demoEnvSemicolon.getUserRight 2 "logs" = ⟨true, "3;7"⟩ ∧
    (demoEnvSemicolon.getUserRight 2 "all").exists = false ∧
    Backup.hasLogRight demoEnvSemicolon
      (demoBackup 7 "beta" .LogAction_LogIfNotDisabled true false) 2 = false := by
  refine ⟨rfl, rfl, ?_⟩
  rw [hasLogRight_semicolon demoEnvSemicolon _ 2
    (getUserRights_all_ne_of_no_override _ _ (by decide)) rfl]
  rfl

/-- C13, amended: the access check of `sendLogdataMail` splits the right at commas only, a
semicolon does not separate client ids: for a user without an "all" override whose "logs" right
is "3;7" the value is a single token that reads as the number 3, so client 3 is authorized and
no other client is (client 7 and client 5 are not). -/
theorem C13_semicolon_is_no_separator (env : Env) (this : Backup) (userid : Int)
    (hall : ¬ ((env.getUserRight userid "all").exists = true ∧
      (env.getUserRight userid "all").value = "all"))
    (hlogs : env.getUserRight userid "logs" = ⟨true, "3;7"⟩) :
    Backup.hasLogRight env this userid = true ↔ this.clientid = 3 := by
  rw [hasLogRight_semicolon env this userid
    (getUserRights_all_ne_of_no_override env userid hall) hlogs]
  simp

/-- Witness of C13 (amended): user 2 of `demoEnvSemicolon` and the clients 3, 7 and 5. -/
theorem C13_semicolon_is_no_separator_witness :
    (Backup.hasLogRight demoEnvSemicolon
        (demoBackup 3 "alpha" .LogAction_LogIfNotDisabled true false) 2 = true
      ↔ (3 : Int) = 3) ∧
    (Backup.hasLogRight demoEnvSemicolon
        (demoBackup 7 "beta" .LogAction_LogIfNotDisabled true false) 2 = true
      ↔ (7 : Int) = 3) ∧
    (Backup.hasLogRight demoEnvSemicolon
        (demoBackup 5 "gamma" .LogAction_LogIfNotDisabled true false) 2 = true
      ↔ (5 : Int) = 3) :=
  ⟨C13_semicolon_is_no_separator demoEnvSemicolon _ 2 (by decide) rfl,
   C13_semicolon_is_no_separator demoEnvSemicolon _ 2 (by decide) rfl,
   C13_semicolon_is_no_separator demoEnvSemicolon _ 2 (by decide) rfl⟩

/-! ## The success flag of the report -/

/-- Every mail sent after the engine has returned `r` is gated and titled with the success flag
`r && !has_early_error`. -/
theorem mem_newMails_callAfter (env : Env) (this : Backup) (r : Bool) (backup_starttime : Int)
    (w : World) (m : MailCall)
    (hm : m ∈ w.newMails (Backup.callAfter env this r backup_starttime w).2) :
    m.subj = Backup.mailSubject this (r && !this.has_early_error)
        (if this.is_file_backup then 0 else 1) (if this.r_incremental then 1 else 0)
        this.r_resumed ∧
      ∃ errors warnings infos : Int,
        Backup.reportGate (env.getUserReportSettings m.userid).report_loglevel
          (env.getUserReportSettings m.userid).report_sendonly (r && !this.has_early_error)
          errors warnings infos = true := by
  rw [newMails_callAfter] at hm
  split at hm
  · have h := mem_reports _ _ _ _ _ _ _ _ _ _ m hm
    exact ⟨h.2.1, _, _, _, h.1⟩
  · cases hm

theorem mailSubject_failed (this : Backup) (image incremental : Int) (resumed : Bool) :
    ∃ pre : String, Backup.mailSubject this false image incremental resumed
      = pre ++ " - failed" := by
  unfold Backup.mailSubject
  exact ⟨_, rfl⟩

/-- C18: every report mail of a run is titled and gated with the success flag
`backup_result && !has_early_error` (the members as the engine leaves them, `backup_result`
being what the engine returned); so when `has_early_error` is set, the subject ends in
" - failed" and the recipient's `report_sendonly` is not 2 (OnlyOnSuccess), also when the engine
returned `true`. -/
theorem C18_early_error_reported_as_failure (env : Env) (doBackup : Engine) (this : Backup)
    (w : World) (m : MailCall)
    (hm : m ∈ (Backup.engineResult env doBackup this w).2.2.newMails
      (Backup.call env doBackup this w).2) :
    m.subj = Backup.mailSubject (Backup.engineResult env doBackup this w).2.1
        ((Backup.engineResult env doBackup this w).1 &&
          !(Backup.engineResult env doBackup this w).2.1.has_early_error)
        (if (Backup.engineResult env doBackup this w).2.1.is_file_backup then 0 else 1)
        (if (Backup.engineResult env doBackup this w).2.1.r_incremental then 1 else 0)
        (Backup.engineResult env doBackup this w).2.1.r_resumed ∧
    (∃ errors warnings infos : Int,
      Backup.reportGate (env.getUserReportSettings m.userid).report_loglevel
        (env.getUserReportSettings m.userid).report_sendonly
        ((Backup.engineResult env doBackup this w).1 &&
          !(Backup.engineResult env doBackup this w).2.1.has_early_error)
        errors warnings infos = true) ∧
    ((Backup.engineResult env doBackup this w).2.1.has_early_error = true →
      (∃ pre : String, m.subj = pre ++ " - failed") ∧
      (env.getUserReportSettings m.userid).report_sendonly ≠ 2) := by
  rw [call_eq] at hm
  obtain ⟨hs, e1, e2, e3, hg⟩ := mem_newMails_callAfter env _ _ _ _ m hm
  refine ⟨hs, ⟨e1, e2, e3, hg⟩, fun he => ?_⟩
  rw [he] at hs hg
  simp only [Bool.not_true, Bool.and_false] at hs hg
  refine ⟨?_, ?_⟩
  · rw [hs]; exact mailSubject_failed _ _ _ _
  · intro h2
    rw [h2] at hg
    simp [Backup.reportGate] at hg

/-- A file backup of "alpha" (client 5) on `demoEnv` with `has_early_error` set, whose engine
returns `true`, is reported to user 1. -/
theorem demo_early_error_run_reports_to_user1 :
    ∃ m ∈ (Backup.engineResult demoEnv (demoEngine true)
        { demoBackup 5 "alpha" .LogAction_LogIfNotDisabled true false with
          has_early_error := true } demoWorld).2.2.newMails
        (Backup.call demoEnv (demoEngine true)
          { demoBackup 5 "alpha" .LogAction_LogIfNotDisabled true false with
            has_early_error := true } demoWorld).2,
      m.userid = 1 := by
  rw [call_eq, newMails_callAfter, if_pos (by decide)]
  exact exists_report_of_gate _ _ _ _ _ _ _ _ _ _ 1 (by decide) rfl (by decide)
    ⟨hasLogRight_of_all_all _ _ _ rfl rfl, rfl, by decide⟩

/-- Witness of C18: the run of `demo_early_error_run_reports_to_user1`: the engine returns
`true`, the report to user 1 has a subject that ends in " - failed". -/
theorem C18_early_error_reported_as_failure_witness :
    (Backup.engineResult demoEnv (demoEngine true)
        { demoBackup 5 "alpha" .LogAction_LogIfNotDisabled true false with
          has_early_error := true } demoWorld).1 = true ∧
    ∃ m ∈ (Backup.engineResult demoEnv (demoEngine true)
        { demoBackup 5 "alpha" .LogAction_LogIfNotDisabled true false with
          has_early_error := true } demoWorld).2.2.newMails
        (Backup.call demoEnv (demoEngine true)
          { demoBackup 5 "alpha" .LogAction_LogIfNotDisabled true false with
            has_early_error := true } demoWorld).2,
      m.userid = 1 ∧ (∃ pre : String, m.subj = pre ++ " - failed") ∧
        (demoEnv.getUserReportSettings m.userid).report_sendonly ≠ 2 := by
  obtain ⟨m, hm, hu⟩ := demo_early_error_run_reports_to_user1
  exact ⟨rfl, m, hm, hu,
    (C18_early_error_reported_as_failure demoEnv (demoEngine true) _ demoWorld m hm).2.2 rfl⟩

/-! ## Monotony of the gating -/

/-- A user gets a report from one call of `sendLogdataMail` exactly when the mail transport is
configured, the user is mailable, passes the access check, has report settings and is gated
in. -/
theorem sentTo_iff (env : Env) (this : Backup) (r_success : Bool)
    (image incremental : Int) (resumed : Bool) (errors warnings infos : Int) (data : String)
    (w : World) (u : Int) :
    Backup.sentTo env this r_success image incremental resumed errors warnings infos data w u ↔
      (env.mail_server.servername ≠ "" ∧ env.url_fak = true ∧ u ∈ env.mailable_user_ids ∧
        Backup.hasLogRight env this u = true ∧ (env.getUserReportSettings u).exists = true ∧
        Backup.reportGate (env.getUserReportSettings u).report_loglevel
          (env.getUserReportSettings u).report_sendonly r_success errors warnings infos
          = true) := by
  unfold Backup.sentTo
  by_cases hoff : env.mail_server.servername = "" ∨ env.url_fak = false
  · rw [newMails_sendLogdataMail_off env this r_success image incremental resumed errors warnings
      infos data w hoff]
    constructor
    · rintro ⟨m, hm, _⟩
      cases hm
    · rintro ⟨h1, h2, _⟩
      rcases hoff with h | h
      · exact absurd h h1
      · rw [h] at h2; cases h2
  · have hmail : env.mail_server.servername ≠ "" := fun h => hoff (Or.inl h)
    have hurl : env.url_fak = true := by
      cases h : env.url_fak
      · exact absurd (Or.inr h) hoff
      · rfl
    by_cases hu : u ∈ env.mailable_user_ids
    · rw [sent_to_user_iff env this r_success image incremental resumed errors warnings infos
        data w u hmail hurl hu]
      exact ⟨fun h => ⟨hmail, hurl, hu, h⟩, fun h => h.2.2.2⟩
    · constructor
      · rintro ⟨m, hm, hmu⟩
        rw [newMails_sendLogdataMail env this r_success image incremental resumed errors
          warnings infos data w hmail hurl, mem_filterMap_reportFor, hmu] at hm
        exact absurd hm.1 hu
      · rintro ⟨_, _, h, _⟩
        exact absurd h hu

theorem sentTo_withReportSettings (env : Env) (this : Backup) (r_success : Bool)
    (image incremental : Int) (resumed : Bool) (errors warnings infos : Int) (data : String)
    (w : World) (u : Int) (rs : SReportSettings) :
    Backup.sentTo (env.withReportSettings u rs) this r_success image incremental resumed
        errors warnings infos data w u ↔
      (env.mail_server.servername ≠ "" ∧ env.url_fak = true ∧ u ∈ env.mailable_user_ids ∧
        Backup.hasLogRight env this u = true ∧ rs.exists = true ∧
        Backup.reportGate rs.report_loglevel rs.report_sendonly r_success errors warnings infos
          = true) := by
  rw [sentTo_iff, hasLogRight_congr (env.withReportSettings u rs) env rfl]
  simp [Env.withReportSettings]

/-- C19: for a user whose report settings have the threshold `t` and the send policy `p`, all
else being equal: if `sendLogdataMail` sends the user a report at threshold 2 (Error) it also
does at threshold 1 (Warning), and if at threshold 1 then also at threshold 0 (Info), for all
counts, every send policy and success flag; and at a threshold above 2 or with a send policy
other than 0, 1 and 2 it sends the user no report. -/
theorem C19_gate_monotone_in_threshold (env : Env) (this : Backup) (r_success : Bool)
    (image incremental : Int) (resumed : Bool) (errors warnings infos : Int) (data : String)
    (w : World) (u : Int) (mail : String) (p : Int) :
    (Backup.sentTo (env.withReportSettings u ⟨true, mail, 2, p⟩) this r_success image
        incremental resumed errors warnings infos data w u →
      Backup.sentTo (env.withReportSettings u ⟨true, mail, 1, p⟩) this r_success image
        incremental resumed errors warnings infos data w u) ∧
    (Backup.sentTo (env.withReportSettings u ⟨true, mail, 1, p⟩) this r_success image
        incremental resumed errors warnings infos data w u →
      Backup.sentTo (env.withReportSettings u ⟨true, mail, 0, p⟩) this r_success image
        incremental resumed errors warnings infos data w u) ∧
    (∀ t : Int, (2 < t ∨ (p ≠ 0 ∧ p ≠ 1 ∧ p ≠ 2)) →
      ¬ Backup.sentTo (env.withReportSettings u ⟨true, mail, t, p⟩) this r_success image
        incremental resumed errors warnings infos data w u) := by
  simp only [sentTo_withReportSettings, reportGate_iff]
  refine ⟨?_, ?_, ?_⟩
  · rintro ⟨h1, h2, h3, h4, h5, hg, hp⟩
    refine ⟨h1, h2, h3, h4, h5, ?_, hp⟩
    rcases hg with hg | hg | hg
    · omega
    · omega
    · exact Or.inr (Or.inr ⟨by omega, hg.2⟩)
  · rintro ⟨h1, h2, h3, h4, h5, hg, hp⟩
    refine ⟨h1, h2, h3, h4, h5, ?_, hp⟩
    rcases hg with hg | hg | hg
    · omega
    · exact Or.inr (Or.inl ⟨by omega, hg.2⟩)
    · exact Or.inr (Or.inr ⟨by omega, hg.2⟩)
  · rintro t ht ⟨_, _, _, _, _, hg, hp⟩
    rcases ht with ht | ht
    · rcases hg with hg | hg | hg <;> omega
    · rcases hp with hp | hp | hp
      · exact ht.1 hp
      · exact ht.2.1 hp.1
      · exact ht.2.2 hp.1

/-- User 1 of `demoEnv` gets the report of a run with one error at the threshold 2. -/
theorem demo_sentTo_threshold2 :
    Backup.sentTo (demoEnv.withReportSettings 1 ⟨true, "admin@example.org", 2, 0⟩)
      (demoBackup 5 "alpha" .LogAction_LogIfNotDisabled true true) true 0 1 false
      1 0 0 "" demoWorld 1 := by
  rw [sentTo_withReportSettings]
  exact ⟨by decide, rfl, by decide, hasLogRight_of_all_all _ _ _ rfl rfl, rfl, by decide⟩

/-- Witness of C19: user 1 of `demoEnv` and a run with one error: the report is sent at the
thresholds 2, 1 and 0, and neither at the threshold 3 nor with the send policy 5. -/
theorem C19_gate_monotone_in_threshold_witness :
    Backup.sentTo (demoEnv.withReportSettings 1 ⟨true, "admin@example.org", 1, 0⟩)
      (demoBackup 5 "alpha" .LogAction_LogIfNotDisabled true true) true 0 1 false
      1 0 0 "" demoWorld 1 ∧
    Backup.sentTo (demoEnv.withReportSettings 1 ⟨true, "admin@example.org", 0, 0⟩)
      (demoBackup 5 "alpha" .LogAction_LogIfNotDisabled true true) true 0 1 false
      1 0 0 "" demoWorld 1 ∧
    ¬ Backup.sentTo (demoEnv.withReportSettings 1 ⟨true, "admin@example.org", 3, 0⟩)
      (demoBackup 5 "alpha" .LogAction_LogIfNotDisabled true true) true 0 1 false
      1 0 0 "" demoWorld 1 ∧
    ¬ Backup.sentTo (demoEnv.withReportSettings 1 ⟨true, "admin@example.org", 0, 5⟩)
      (demoBackup 5 "alpha" .LogAction_LogIfNotDisabled true true) true 0 1 false
      1 0 0 "" demoWorld 1 :=
  ⟨(C19_gate_monotone_in_threshold demoEnv _ true 0 1 false 1 0 0 "" demoWorld 1
      "admin@example.org" 0).1 demo_sentTo_threshold2,
   (C19_gate_monotone_in_threshold demoEnv _ true 0 1 false 1 0 0 "" demoWorld 1
      "admin@example.org" 0).2.1
     ((C19_gate_monotone_in_threshold demoEnv _ true 0 1 false 1 0 0 "" demoWorld 1
      "admin@example.org" 0).1 demo_sentTo_threshold2),
   (C19_gate_monotone_in_threshold demoEnv _ true 0 1 false 1 0 0 "" demoWorld 1
      "admin@example.org" 0).2.2 3 (Or.inl (by decide)),
   (C19_gate_monotone_in_threshold demoEnv _ true 0 1 false 1 0 0 "" demoWorld 1
      "admin@example.org" 5).2.2 0 (Or.inr (by decide))⟩

/-! ## The lines of the report -/

/-- The parser of `sendLogdataMail` reads a serialized entry back (lines 275-281). -/
theorem parseLogLine_serializeLogEntry (sep : Char) (loglevel time : Int) (msg : String)
    (hl : loglevel = 0 ∨ loglevel = 1 ∨ loglevel = 2)
    (ht0 : 0 ≤ time) (ht1 : time < 9223372036854775808) :
    Backup.parseLogLine (serializeLogEntry sep ⟨loglevel, time, msg⟩) = (loglevel, time, msg) := by
  obtain ⟨d, hd, hw⟩ := level_digit loglevel hl
  have hline : (serializeLogEntry sep ⟨loglevel, time, msg⟩).toList =
      d :: sep :: ((toString time).toList ++ '-' :: msg.toList) := by
    unfold serializeLogEntry
    simp only [toList_append, hd]
    simp [String.toList, String.singleton]
  have hnd := toString_nonneg_no_dash time ht0
  unfold Backup.parseLogLine
  simp only [hline, List.drop_succ_cons, List.drop_zero]
  rw [getuntil_dash _ _ hnd, getafter_dash _ _ hnd, hw]
  have e1 : String.mk (toString time).toList = toString time := rfl
  have e2 : String.mk msg.toList = msg := rfl
  rw [e1, e2, watoi64_toString time (by omega) ht1]

/-- The line of the report for a serialized entry. -/
theorem renderLogLine_serializeLogEntry (env : Env) (sep : Char) (e : LogEntry)
    (hl : e.loglevel = 0 ∨ e.loglevel = 1 ∨ e.loglevel = 2)
    (ht0 : 0 ≤ e.time) (ht1 : e.time < 9223372036854775808) :
    Backup.renderLogLine env (serializeLogEntry sep e) = renderedEntry env e := by
  have hp := parseLogLine_serializeLogEntry sep e.loglevel e.time e.msg hl ht0 ht1
  unfold Backup.renderLogLine renderedEntry severityWord
  rw [hp]
  rcases hl with h | h | h <;> simp [h]

theorem newline_contains (c : Char) (h : c ≠ '\n') : ['\n'].contains c = false := by
  simp [h]

/-- A serialized entry has no line break when its delimiter and its message have none. -/
theorem serializeLogEntry_no_newline (sep : Char) (e : LogEntry) (hsep : sep ≠ '\n')
    (hmsg : '\n' ∉ e.msg.toList) :
    ∀ c ∈ (serializeLogEntry sep e).toList, ['\n'].contains c = false := by
  have hint : ∀ i : Int, ∀ c ∈ (toString i).toList, c ≠ '\n' := by
    intro i c hc
    rcases (toString_int_chars i).2 c hc with h | h
    · have hb := isDigit_bounds c h
      intro e; rw [e] at hb; revert hb; decide
    · rw [h]; decide
  intro c hc
  apply newline_contains
  unfold serializeLogEntry at hc
  simp only [toList_append, List.mem_append] at hc
  rcases hc with (((hc | hc) | hc) | hc) | hc
  · exact hint _ c hc
  · have : c = sep := by simpa [String.toList, String.singleton] using hc
    rw [this]; exact hsep
  · exact hint _ c hc
  · have : c = '-' := by
      have e : "-".toList = ['-'] := rfl
      rw [e] at hc
      simpa using hc
    rw [this]; decide
  · intro e; rw [e] at hc; exact hmsg hc

/-- The lines of a serialized log are its serialized entries. -/
theorem TokenizeMail_serializeLog (sep : Char) (entries : List LogEntry) (hsep : sep ≠ '\n')
    (hmsg : ∀ e ∈ entries, '\n' ∉ e.msg.toList) :
    TokenizeMail (serializeLog sep entries) "\n" = entries.map (serializeLogEntry sep) := by
  have key : tokenizeChars ['\n'] (serializeLog sep entries).toList [] =
      entries.map fun e => (serializeLogEntry sep e).toList := by
    induction entries with
    | nil => rfl
    | cons e rest ih =>
      have hl : (serializeLog sep (e :: rest)).toList =
          (serializeLogEntry sep e).toList ++ '\n' :: (serializeLog sep rest).toList := by
        have e' : "\n".toList = ['\n'] := rfl
        simp only [serializeLog, toList_append, e', List.append_assoc, List.singleton_append]
      rw [hl, tokenizeChars_token _ _ (serializeLogEntry_no_newline sep e hsep
        (hmsg e (List.mem_cons_self _ _))), tokenizeChars]
      simp only [List.contains_cons, beq_self_eq_true, Bool.true_or, if_true, List.nil_append,
        List.map_cons]
      rw [ih (fun x hx => hmsg x (List.mem_cons_of_mem _ hx))]
  unfold TokenizeMail
  have e : "\n".toList = ['\n'] := rfl
  rw [e, key, List.map_map]
  apply List.map_congr_left
  intro x _
  rfl

/-- C17: when the serialized log consists of the lines of `n` well-formed entries (severity 0,
1 or 2, a timestamp that is not negative, no line break in the message or as the delimiter),
the text of every report mail of `sendLogdataMail` is the opening with the counts summary
followed by exactly `n` rendered lines in the order of the entries, the one of an entry being
`formatUnixtime(timestamp) + "(" + word + "): " + message` and a line break, with the word
"info", "warning" or "error" for the severity 0, 1 or 2. -/
theorem C17_body_renders_every_line (env : Env) (this : Backup) (r_success : Bool)
    (image incremental : Int) (resumed : Bool) (errors warnings infos : Int)
    (w : World) (m : MailCall) (sep : Char) (entries : List LogEntry)
    (hsep : sep ≠ '\n')
    (hwf : ∀ e ∈ entries, (e.loglevel = 0 ∨ e.loglevel = 1 ∨ e.loglevel = 2) ∧
      0 ≤ e.time ∧ e.time < 9223372036854775808 ∧ '\n' ∉ e.msg.toList)
    (hm : m ∈ w.newMails (Backup.sendLogdataMail env this r_success image incremental resumed
      errors warnings infos (serializeLog sep entries) w)) :
    ∃ opening : String,
      m.msg = opening ++ "\nReport:\n" ++ countsSummary infos warnings errors ++ "\n\n"
        ++ joinAll (entries.map (renderedEntry env)) := by
  obtain ⟨opening, ho⟩ := mailHead_eq this image incremental resumed errors warnings infos
  refine ⟨opening, ?_⟩
  rw [(newMails_subj_msg env this r_success image incremental resumed errors warnings
    infos _ w m hm).2, mailBody_eq, ho,
    TokenizeMail_serializeLog sep entries hsep (fun e he => (hwf e he).2.2.2), List.map_map]
  congr 2
  apply List.map_congr_left
  intro e he
  exact renderLogLine_serializeLogEntry env sep e (hwf e he).1 (hwf e he).2.1 (hwf e he).2.2.1

/-- The mail that user 1 of `demoEnv` gets about a successful resumed incremental file backup of
the client "alpha" (id 5) with the serialized log `data`. -/
theorem demo_mail_mem_data (data : String) :
    (⟨1, ["admin@example.org"],
        Backup.mailSubject (demoBackup 5 "alpha" .LogAction_LogIfNotDisabled true true)
          true 0 1 true,
        Backup.mailBody demoEnv (demoBackup 5 "alpha" .LogAction_LogIfNotDisabled true true)
          0 1 true 0 1 2 data⟩ : MailCall) ∈
      demoWorld.newMails (Backup.sendLogdataMail demoEnv
        (demoBackup 5 "alpha" .LogAction_LogIfNotDisabled true true) true 0 1 true
        0 1 2 data demoWorld) := by
  have ht : Tokenize (demoEnv.getUserReportSettings 1).report_mail ",;"
      = ["admin@example.org"] := by decide
  apply mem_newMails_of_reportFor demoEnv _ true 0 1 true 0 1 2 data demoWorld 1 _
    (by decide) rfl (by decide)
  unfold Backup.reportFor
  rw [if_pos ⟨hasLogRight_of_all_all _ _ _ rfl rfl, rfl, by decide⟩, ht]

/-- Witness of C17: the log `demoEntries` (two infos, one warning) in the report to user 1 of
`demoEnv`. -/
theorem C17_body_renders_every_line_witness :
    serializeLog '-' demoEntries =
      "0-1700000000-Starting backup\n1-1700000003-Slow link\n0-1700000005-Backup succeeded\n" ∧
    joinAll (demoEntries.map (renderedEntry demoEnv)) =
      "1700000000(info): Starting backup\n1700000003(warning): Slow link\n1700000005(info): Backup succeeded\n" ∧
    ∃ opening : String,
      Backup.mailBody demoEnv (demoBackup 5 "alpha" .LogAction_LogIfNotDisabled true true)
          0 1 true 0 1 2 (serializeLog '-' demoEntries) =
        opening ++ "\nReport:\n" ++ countsSummary 2 1 0 ++ "\n\n"
          ++ joinAll (demoEntries.map (renderedEntry demoEnv)) :=
  ⟨by decide, by decide,
   C17_body_renders_every_line demoEnv
     (demoBackup 5 "alpha" .LogAction_LogIfNotDisabled true true) true 0 1 true 0 1 2
     demoWorld _ '-' demoEntries (by decide) (by decide)
     (demo_mail_mem_data (serializeLog '-' demoEntries))⟩

/-! ## One report for all recipients -/

/-- C20: any two report mails of one call of `sendLogdataMail` have the same subject and the
same text, whatever the thresholds and send policies of their recipients; the text is the
opening with the counts summary followed by the rendered lines of the whole serialized log,
every entry included. -/
theorem C20_report_same_for_all_recipients (env : Env) (this : Backup) (r_success : Bool)
    (image incremental : Int) (resumed : Bool) (errors warnings infos : Int) (data : String)
    (w : World) (m1 m2 : MailCall)
    (h1 : m1 ∈ w.newMails (Backup.sendLogdataMail env this r_success image incremental resumed
      errors warnings infos data w))
    (h2 : m2 ∈ w.newMails (Backup.sendLogdataMail env this r_success image incremental resumed
      errors warnings infos data w)) :
    m1.subj = m2.subj ∧ m1.msg = m2.msg ∧
      m1.msg = Backup.mailHead this image incremental resumed errors warnings infos ++
        joinAll ((TokenizeMail data "\n").map (Backup.renderLogLine env)) := by
  have e1 := newMails_subj_msg env this r_success image incremental resumed errors warnings
    infos data w m1 h1
  have e2 := newMails_subj_msg env this r_success image incremental resumed errors warnings
    infos data w m2 h2
  refine ⟨by rw [e1.1, e2.1], by rw [e1.2, e2.2], ?_⟩
  rw [e1.2, mailBody_eq]

/-- On `demoEnvErrorsOnly` the failed full file backup of client 3 with the log
`demoEntriesError` is reported to user 1 and to user 2, whose threshold is 2 (Error). -/
theorem demo_errorsOnly_sentTo (u : Int) (hu : u = 1 ∨ u = 2) :
    Backup.sentTo demoEnvErrorsOnly (demoBackup 3 "alpha" .LogAction_LogIfNotDisabled true false)
      false 0 0 false 1 0 1 (serializeLog '-' demoEntriesError) demoWorld u := by
  rw [sentTo_iff]
  rcases hu with h | h <;> subst h
  · exact ⟨by decide, rfl, by decide, hasLogRight_of_all_all _ _ _ rfl rfl, rfl, by decide⟩
  · refine ⟨by decide, rfl, by decide, ?_, rfl, by decide⟩
    rw [hasLogRight_of_logs demoEnvErrorsOnly _ 2
      (getUserRights_all_ne_of_no_override _ _ (by decide)) rfl (by decide)]
    decide

/-- Witness of C20: the reports of `demo_errorsOnly_sentTo` to user 1 (threshold Warning) and to
user 2 (threshold Error) have the same subject and text, and the text lists the info entry. -/
theorem C20_report_same_for_all_recipients_witness :
    (demoEnvErrorsOnly.getUserReportSettings 1).report_loglevel = 1 ∧
    (demoEnvErrorsOnly.getUserReportSettings 2).report_loglevel = 2 ∧
    joinAll ((TokenizeMail (serializeLog '-' demoEntriesError) "\n").map
        (Backup.renderLogLine demoEnvErrorsOnly)) =
      "1700000000(info): Starting backup\n1700000005(error): disk-full-error\n" ∧
    ∃ m1 ∈ demoWorld.newMails (Backup.sendLogdataMail demoEnvErrorsOnly
        (demoBackup 3 "alpha" .LogAction_LogIfNotDisabled true false) false 0 0 false 1 0 1
        (serializeLog '-' demoEntriesError) demoWorld),
    ∃ m2 ∈ demoWorld.newMails (Backup.sendLogdataMail demoEnvErrorsOnly
        (demoBackup 3 "alpha" .LogAction_LogIfNotDisabled true false) false 0 0 false 1 0 1
        (serializeLog '-' demoEntriesError) demoWorld),
      m1.userid = 1 ∧ m2.userid = 2 ∧ m1.subj = m2.subj ∧ m1.msg = m2.msg ∧
      m1.msg = Backup.mailHead (demoBackup 3 "alpha" .LogAction_LogIfNotDisabled true false)
          0 0 false 1 0 1 ++
        joinAll ((TokenizeMail (serializeLog '-' demoEntriesError) "\n").map
          (Backup.renderLogLine demoEnvErrorsOnly)) := by
  obtain ⟨m1, hm1, hu1⟩ := demo_errorsOnly_sentTo 1 (Or.inl rfl)
  obtain ⟨m2, hm2, hu2⟩ := demo_errorsOnly_sentTo 2 (Or.inr rfl)
  exact ⟨rfl, rfl, by decide, m1, hm1, m2, hm2, hu1, hu2,
    C20_report_same_for_all_recipients demoEnvErrorsOnly _ false 0 0 false 1 0 1 _ demoWorld
      m1 m2 hm1 hm2⟩

end UrBackup
